import Mathlib

/-!
# Verification of the data-explorer core engines

A shallow embedding of the Python data-explorer server
(`data_explorer_server_python`): value coercion, the filter engine
(`filters.apply_filters`), the chart engine (`charts.build_chart_response`
with its bar / scatter / histogram builders), the profiling engine
(`profiling.profile_dataframe`) and the preview renderer
(`utils.dataframe_preview`).

Modelling conventions:
* Cell values are the closed scalar type `Value` (null / bool / rational /
  string).  Rationals stand for Python floats and ints: all arithmetic is
  exact, so properties stated "within floating tolerance" become exact
  identities.
* Columns carry an explicit dtype tag (`DType`); the model covers numeric,
  boolean and string columns, the dtypes exercised by the engines under
  verification (datetime columns are outside the model's scope).
* A pandas `DataFrame` is a column header list plus row-major cell lists;
  `convert_dtypes` is the identity here because columns are already typed.
* Python exceptions (`KeyError` from `ensure_column_exists`, `ValueError`
  from the chart builders and `float()`) are the `Except AppError` monad.
* The population standard deviation `std(ddof=0)` is represented by its
  square (the population variance), which stays inside `ℚ`; the square
  root is strictly monotone on nonnegative values, so the divisor
  (`count` versus `count - 1`) is fully captured at the variance level.
-/

namespace DataExplorer

/-- A scalar cell value: Python `None`/`NaN`, `bool`, numbers (ints and
floats, represented exactly as rationals) and `str`. -/
inductive Value where
  | null
  | bool (b : Bool)
  | num (q : ℚ)
  | str (s : String)
deriving DecidableEq, Repr

/-- The dtype tag of a column. -/
inductive DType where
  | numeric
  | boolean
  | string
deriving DecidableEq, Repr

/-- A column header: name and dtype. -/
structure ColumnMeta where
  name : String
  dtype : DType
deriving DecidableEq, Repr

/-- A pandas `DataFrame`: column headers plus row-major cells.  Row `r`
has the value of column `i` at position `i`. -/
structure DataFrame where
  cols : List ColumnMeta
  rows : List (List Value)
deriving DecidableEq, Repr

/-- `pd.isna` on a scalar. -/
def isna : Value → Bool
  | .null => true
  | _ => false

/-- Cell of row `r` at column position `i`. -/
def cellAt (r : List Value) (i : Nat) : Value := r.getD i Value.null

/-- Position of a named column, `none` when absent. -/
def colIdx? (df : DataFrame) (c : String) : Option Nat :=
  df.cols.findIdx? (fun col => col.name == c)

/-- Whether a named column exists (`column in dataframe.columns`). -/
def hasColumn (df : DataFrame) (c : String) : Bool :=
  df.cols.any (fun col => col.name == c)

/-- Dtype of the column at position `i`. -/
def dtypeAt (df : DataFrame) (i : Nat) : DType :=
  ((df.cols.get? i).map ColumnMeta.dtype).getD DType.string

/-- Name of the column at position `i`. -/
def nameAt (df : DataFrame) (i : Nat) : String :=
  ((df.cols.get? i).map ColumnMeta.name).getD ""

/-- The series of the column at position `i` (`dataframe[column]`). -/
def seriesOf (df : DataFrame) (i : Nat) : List Value :=
  df.rows.map (fun r => cellAt r i)

/-- Parse the plain decimal fragment of Python `float` literals:
optional surrounding whitespace, optional sign, digits with an optional
fractional part.  `none` models `float(...)` raising `ValueError` /
`pd.to_numeric` coercing to `NaN`. -/
def parseDigits? (cs : List Char) : Option Nat :=
  if cs.isEmpty then none
  else
    cs.foldl
      (fun acc c =>
        match acc with
        | none => none
        | some n => if c.isDigit then some (n * 10 + (c.toNat - 48)) else none)
      (some 0)

/-- Parse an unsigned decimal, possibly with a fractional part. -/
def parseUnsigned? (s : List Char) : Option ℚ :=
  match s.splitOn '.' with
  | [intPart] => (parseDigits? intPart).map (fun n => (n : ℚ))
  | [intPart, fracPart] =>
      match parseDigits? (intPart ++ fracPart) with
      | some n => some ((n : ℚ) / ((10 : ℚ) ^ fracPart.length))
      | none => none
  | _ => none

/-- Python `str.strip()` on a character list (kernel-reducible, unlike
`String.trim`). -/
def stripChars (cs : List Char) : List Char :=
  (((cs.dropWhile Char.isWhitespace).reverse).dropWhile Char.isWhitespace).reverse

/-- Python `str.strip()`. -/
def strip (s : String) : String := String.mk (stripChars s.toList)

/-- Python `str.lower()` (kernel-reducible, unlike `String.toLower`). -/
def lower (s : String) : String := String.mk (s.toList.map Char.toLower)

/-- Parse a Python float literal (sign + decimal digits, optional
fractional part), after stripping whitespace. -/
def parseFloat? (s : String) : Option ℚ :=
  match stripChars s.toList with
  | '-' :: rest => (parseUnsigned? rest).map (fun q => -q)
  | '+' :: rest => parseUnsigned? rest
  | rest => parseUnsigned? rest

/-- `pd.to_numeric(·, errors="coerce")` on one scalar: numbers pass
through, booleans become 0/1, parseable strings become numbers and
everything else becomes `NaN`. -/
def toNumeric : Value → Value
  | .null => .null
  | .bool b => .num (if b then 1 else 0)
  | .num q => .num q
  | .str s =>
      match parseFloat? s with
      | some q => .num q
      | none => .null

/-- Extract the rational from a (coerced) numeric value; `0` is a
placeholder on the non-numeric tags, which the engines never hit after
coercion (`astype("float64")` semantics). -/
def toQ : Value → ℚ
  | .num q => q
  | .bool b => if b then 1 else 0
  | _ => 0

/-- `utils.to_python_value`: on the closed scalar type every branch of
the source returns the value itself (NaN-like sentinels are already
`Value.null`). -/
def to_python_value : Value → Value
  | .null => .null
  | .bool b => .bool b
  | .num q => .num q
  | .str s => .str s

/-- `utils.coerce_value_for_series`, with the series represented by its
dtype tag: numeric columns coerce via `float(value)` (empty/blank strings
to `None`, unparseable strings returned raw by the `except` branch),
boolean columns map the textual forms and otherwise apply `bool(value)`,
and other dtypes return the value unchanged. -/
def coerce_value_for_series (dtype : DType) (value : Value) : Value :=
  if isna value then value
  else
    match dtype with
    | .numeric =>
        match value with
        | .str s =>
            if strip s = "" then .null
            else
              match parseFloat? s with
              | some q => .num q
              | none => .str s
        | .bool b => .num (if b then 1 else 0)
        | .num q => .num q
        | .null => .null
    | .boolean =>
        match value with
        | .str s =>
            let lowered := lower (strip s)
            if lowered = "true" ∨ lowered = "1" ∨ lowered = "yes" then .bool true
            else if lowered = "false" ∨ lowered = "0" ∨ lowered = "no" then .bool false
            else .bool (s ≠ "")
        | .bool b => .bool b
        | .num q => .bool (q ≠ 0)
        | .null => .null
    | .string => value

/-- Errors raised by the engines: `KeyError` (a named column is missing)
and `ValueError` (invalid argument). -/
inductive AppError where
  | notFound (column : String)
  | invalidArgument (msg : String)
deriving DecidableEq, Repr

/-- Equality of `Except` results is decidable (used to evaluate concrete
engine runs inside proofs). -/
instance exceptDecEq {ε α : Type _} [DecidableEq ε] [DecidableEq α] :
    DecidableEq (Except ε α)
  | .ok a, .ok b =>
      if h : a = b then .isTrue (by rw [h]) else .isFalse (by intro hh; cases hh; exact h rfl)
  | .ok _, .error _ => .isFalse (by intro h; cases h)
  | .error _, .ok _ => .isFalse (by intro h; cases h)
  | .error e, .error e' =>
      if h : e = e' then .isTrue (by rw [h]) else .isFalse (by intro hh; cases hh; exact h rfl)

/-- `utils.ensure_column_exists`: the position of the column, or a
`KeyError` naming it. -/
def ensure_column_exists (df : DataFrame) (column : String) : Except AppError Nat :=
  match colIdx? df column with
  | some i => .ok i
  | none => .error (.notFound column)

/-- The filter wire shapes of `schemas.py`: a discriminated union of
`EqualsFilter {column, value}` and `RangeFilter {column, min?, max?}`. -/
inductive Filter where
  | equals (column : String) (value : Value)
  | range (column : String) (min? : Option Value) (max? : Option Value)
deriving DecidableEq, Repr

/-- The column a filter references. -/
def Filter.column : Filter → String
  | .equals c _ => c
  | .range c _ _ => c

/-- Elementwise `series == value` (pandas never raises here: a scalar of
a mismatched type compares unequal everywhere). -/
def valueEqB (a b : Value) : Bool := a == b

/-- Elementwise `a >= b` between a cell and a scalar of the same kind;
comparisons involving nulls are `False` (NaN semantics), and booleans
participate as the numbers 0/1. -/
def valueGeB (a b : Value) : Bool :=
  match a, b with
  | .num x, .num y => y ≤ x
  | .num x, .bool y => (if y then (1 : ℚ) else 0) ≤ x
  | .bool x, .num y => y ≤ (if x then (1 : ℚ) else 0)
  | .bool x, .bool y => y ≤ x
  | .str x, .str y => y ≤ x
  | _, _ => false

/-- Elementwise `a <= b`, with the same conventions as `valueGeB`. -/
def valueLeB (a b : Value) : Bool :=
  match a, b with
  | .num x, .num y => x ≤ y
  | .num x, .bool y => x ≤ (if y then (1 : ℚ) else 0)
  | .bool x, .num y => (if x then (1 : ℚ) else 0) ≤ y
  | .bool x, .bool y => x ≤ y
  | .str x, .str y => x ≤ y
  | _, _ => false

/-- Whether pandas can order a series of dtype `dtype` against the scalar
`bound`: string columns order only against strings, numeric/boolean
columns only against numbers, booleans or NaN; anything else raises
`TypeError`. -/
def seriesCmpOk (dtype : DType) (bound : Value) : Bool :=
  match dtype, bound with
  | .string, .str _ => true
  | .string, _ => false
  | _, .str _ => false
  | _, _ => true

/-- Pointwise conjunction of a row mask with a new condition
(`mask &= cond`). -/
def andMask (m c : List Bool) : List Bool := m.zipWith (· && ·) c

/-- `dataframe[mask]`: keep the rows whose mask entry is true. -/
def keepRows : List (List Value) → List Bool → List (List Value)
  | r :: rs, b :: bs => if b then r :: keepRows rs bs else keepRows rs bs
  | _, _ => []

/-- One optional bound of a Range filter: coerce the bound to the
column's dtype and fold `series >= bound` (or `<=`) into the mask; an
unorderable bound propagates pandas' `TypeError` (modelled as `Except`
failure). -/
def boundMask (dtype : DType) (series : List Value) (cmp : Value → Value → Bool)
    (bound? : Option Value) (m : List Bool) : Except Unit (List Bool) :=
  match bound? with
  | none => pure m
  | some b =>
      let bound := coerce_value_for_series dtype b
      if seriesCmpOk dtype bound then pure (andMask m (series.map (fun x => cmp x bound)))
      else .error ()

/-- One step of the filter loop in `filters.apply_filters`: fold the
filter's condition into the mask.  A missing column (`KeyError`) skips
the filter. -/
def filterStep (df : DataFrame) (m : List Bool) (f : Filter) : Except Unit (List Bool) :=
  match colIdx? df f.column with
  | none => .ok m
  | some i =>
      let dtype := dtypeAt df i
      let series := seriesOf df i
      match f with
      | .equals _ v =>
          let value := coerce_value_for_series dtype v
          if isna value then .ok (andMask m (series.map isna))
          else .ok (andMask m (series.map (fun x => valueEqB x value)))
      | .range _ mn? mx? => do
          let m₁ ← boundMask dtype series valueGeB mn? m
          boundMask dtype series valueLeB mx? m₁

/-- `filters.apply_filters`: an empty filter list returns the frame
unchanged; otherwise the all-true mask is narrowed by every filter in
turn and applied once at the end. -/
def apply_filters (df : DataFrame) (filters : List Filter) : Except Unit DataFrame :=
  if filters.isEmpty then .ok df
  else do
    let mask ← filters.foldlM (filterStep df) (List.replicate df.rows.length true)
    pure { df with rows := keepRows df.rows mask }

/-! ## Orderings used by `groupby(sort=True)` and `sort_values`

Sorting compares tag rank first (null ranks last, matching pandas'
NaN-last placement), then the payload.  Columns are homogeneous in
practice, so the cross-tag ordering is never observable.  The
comparisons are hand-rolled `Bool` functions so that concrete sorts
evaluate inside the kernel. -/

/-- Lexicographic order on character lists by code point. -/
def strLeB : List Char → List Char → Bool
  | [], _ => true
  | _ :: _, [] => false
  | a :: as, b :: bs =>
      if a.toNat < b.toNat then true
      else if b.toNat < a.toNat then false
      else strLeB as bs

/-- Rank of a value's tag for sorting; nulls sort last. -/
def tagRank : Value → ℕ
  | .bool _ => 0
  | .num _ => 1
  | .str _ => 2
  | .null => 3

/-- Ascending order on scalars, as used for sorting. -/
def valueLe (a b : Value) : Bool :=
  match a, b with
  | .bool x, .bool y => !x || y
  | .num x, .num y => decide (x ≤ y)
  | .str x, .str y => strLeB x.toList y.toList
  | .null, .null => true
  | _, _ => decide (tagRank a ≤ tagRank b)

/-- A bar-chart group key: the `x` value plus the `color` value when a
color column is configured. -/
abbrev GroupKey := Value × Option Value

/-- Order on the optional color component (`none` only when no color
column is configured; never mixed with `some` within one chart). -/
def optValueLe : Option Value → Option Value → Bool
  | none, _ => true
  | some _, none => false
  | some a, some b => valueLe a b

/-- Ascending order on group keys: by `x`, then by `color`. -/
def keyLe (a b : GroupKey) : Bool :=
  if a.1 = b.1 then optValueLe a.2 b.2 else valueLe a.1 b.1

/-- `keyLe` as a relation, for `List.insertionSort`. -/
def keyLeP (a b : GroupKey) : Prop := keyLe a b = true

instance : DecidableRel keyLeP := fun a b =>
  inferInstanceAs (Decidable (keyLe a b = true))

/-! ## Chart engine (`charts.py`) -/

/-- `schemas.Aggregation`. -/
inductive Aggregation where
  | count
  | sum
  | avg
deriving DecidableEq, Repr

/-- `schemas.ChartConfig`.  The chart type is kept as its wire string so
that the dispatcher's unsupported-type branch is reachable. -/
structure ChartConfig where
  chartType : String
  x : String
  y : Option String := none
  color : Option String := none
  binCount : Option Nat := some 10
  aggregation : Aggregation := .count
deriving DecidableEq, Repr

/-- One bar-chart series row `{category, value, color?}`. -/
structure BarRecord where
  category : Value
  value : ℚ
  color : Option Value := none
deriving DecidableEq, Repr

/-- One scatter point `{x, y, color?}`. -/
structure ScatterPoint where
  x : ℚ
  y : ℚ
  color : Option Value := none
deriving DecidableEq, Repr

/-- One histogram bin `{binStart, binEnd, count}`. -/
structure HistogramBin where
  binStart : ℚ
  binEnd : ℚ
  count : ℕ
deriving DecidableEq, Repr

/-- The group key of a row: `x` value, plus `color` value when a color
column position is given. -/
def rowKey (r : List Value) (xi : Nat) (ci? : Option Nat) : GroupKey :=
  (cellAt r xi, ci?.map (fun ci => cellAt r ci))

/-- `working.groupby(group_keys, dropna=False)` with pandas' default
`sort=True`: the distinct keys in ascending key order, each paired with
its rows (original order within a group). -/
def groupRows (working : List (List Value)) (xi : Nat) (ci? : Option Nat) :
    List (GroupKey × List (List Value)) :=
  let keys := (working.map (fun r => rowKey r xi ci?)).dedup
  (List.insertionSort keyLeP keys).map
    (fun k => (k, working.filter (fun r => rowKey r xi ci? == k)))

/-- The `sum`/`avg` arm of `charts._bar_chart`: `y` is required, coerced
to numeric with nulls dropped, then reduced per group. -/
def barSumAvg (df : DataFrame) (working : List (List Value)) (agg : Aggregation)
    (y? : Option String) (xi : Nat) (ci? : Option Nat) :
    Except AppError (List (GroupKey × ℚ)) :=
  match y? with
  | none => .error (.invalidArgument "Bar charts with sum/avg require y column.")
  | some yname => do
      let yi ← ensure_column_exists df yname
      let coerced := working.map (fun r => r.set yi (toNumeric (cellAt r yi)))
      let kept := coerced.filter (fun r => !(isna (cellAt r yi)))
      pure ((groupRows kept xi ci?).map (fun kg =>
        let s := (kg.2.map (fun r => toQ (cellAt r yi))).sum
        (kg.1, if agg = Aggregation.sum then s else s / (kg.2.length : ℚ))))

/-- The `grouped` stage of `charts._bar_chart`: drop rows with null `x`,
group by `(x[, color])`; `count` takes group sizes, `sum`/`avg` go
through `barSumAvg`. -/
def barGrouped (df : DataFrame) (config : ChartConfig) (xi : Nat) (ci? : Option Nat) :
    Except AppError (List (GroupKey × ℚ)) :=
  let working := df.rows.filter (fun r => !(isna (cellAt r xi)))
  match config.aggregation with
  | .count =>
      pure ((groupRows working xi ci?).map (fun kg => (kg.1, (kg.2.length : ℚ))))
  | agg => barSumAvg df working agg config.y xi ci?

/-- The color step of `charts._bar_chart`: when a color column is
configured it must exist, and grouping keys gain its position. -/
def colorIdx? (df : DataFrame) (color? : Option String) : Except AppError (Option Nat) :=
  match color? with
  | some c => do
      let ci ← ensure_column_exists df c
      pure (some ci)
  | none => pure none

/-- `charts._bar_chart`: ensure `x` (and `color`) exist, compute the
grouped aggregation, and render the series records. -/
def bar_chart (df : DataFrame) (config : ChartConfig) : Except AppError (List BarRecord) := do
  let xi ← ensure_column_exists df config.x
  let ci? ← colorIdx? df config.color
  let grouped ← barGrouped df config xi ci?
  pure (grouped.map (fun kv =>
    { category := to_python_value kv.1.1
      value := kv.2
      color := kv.1.2.map to_python_value }))

/-- Per-row association list standing for the `working` frame built by
`_scatter_points`; `assocSet` has dict-assignment semantics (replace an
existing key, else append a new column). -/
def assocSet (l : List (String × Value)) (k : String) (v : Value) : List (String × Value) :=
  if l.any (fun p => p.1 == k) then
    l.map (fun p => if p.1 == k then (k, v) else p)
  else l ++ [(k, v)]

/-- Lookup in a `working` row; columns always exist at lookup sites. -/
def assocGet (l : List (String × Value)) (k : String) : Value :=
  ((l.find? (fun p => p.1 == k)).map Prod.snd).getD .null

/-- Python `float(value)`: numbers and booleans convert, strings parse or
raise `ValueError`; the null branch is unreachable after `dropna`. -/
def floatE : Value → Except AppError ℚ
  | .num q => .ok q
  | .bool b => .ok (if b then 1 else 0)
  | .str s =>
      match parseFloat? s with
      | some q => .ok q
      | none => .error (.invalidArgument "could not convert string to float")
  | .null => .error (.invalidArgument "cannot convert null to float")

/-- The two-column working row
`pd.DataFrame({config.x: series_x, config.y: series_y})` of
`_scatter_points`, restricted to one source row. -/
def scatterBase (config : ChartConfig) (yname : String) (xi yi : Nat) (r : List Value) :
    List (String × Value) :=
  assocSet (assocSet [] config.x (toNumeric (cellAt r xi))) yname (toNumeric (cellAt r yi))

/-- One working row of `_scatter_points` after the optional
`working[config.color] = dataframe[config.color]` assignment (performed
only when the color column exists in the table). -/
def scatterRow (df : DataFrame) (config : ChartConfig) (yname : String) (xi yi : Nat)
    (r : List Value) : List (String × Value) :=
  match config.color with
  | some c =>
      match colIdx? df c with
      | some ci => assocSet (scatterBase config yname xi yi r) c (cellAt r ci)
      | none => scatterBase config yname xi yi r
  | none => scatterBase config yname xi yi r

/-- `working.sort_values(by=x)`: compare rows by their `x` column. -/
def scatterRowLe (xname : String) (w₁ w₂ : List (String × Value)) : Prop :=
  valueLe (assocGet w₁ xname) (assocGet w₂ xname) = true

instance (xname : String) : DecidableRel (scatterRowLe xname) := fun w₁ w₂ =>
  inferInstanceAs (Decidable (valueLe (assocGet w₁ xname) (assocGet w₂ xname) = true))

/-- The point emitted from one working row by the final loop of
`_scatter_points`: `float(x)`, `float(y)`, and the color cell when the
color column was copied into the working frame. -/
def scatterEmitE (df : DataFrame) (config : ChartConfig) (yname : String)
    (w : List (String × Value)) : Except AppError ScatterPoint := do
  let xq ← floatE (assocGet w config.x)
  let yq ← floatE (assocGet w yname)
  pure { x := xq, y := yq,
         color :=
           match config.color with
           | some c => if hasColumn df c then some (to_python_value (assocGet w c)) else none
           | none => none }

/-- The pure value of `scatterEmitE` on a working row whose `x`/`y`
entries are already numeric (the only rows surviving `dropna`). -/
def scatterEmitP (df : DataFrame) (config : ChartConfig) (yname : String)
    (w : List (String × Value)) : ScatterPoint :=
  { x := toQ (assocGet w config.x), y := toQ (assocGet w yname),
    color :=
      match config.color with
      | some c => if hasColumn df c then some (to_python_value (assocGet w c)) else none
      | none => none }

/-- Whether a source row survives `dropna(subset=[x, y])` after the
numeric coercion of its `x` and `y` cells. -/
def scatterValid (xi yi : Nat) (r : List Value) : Bool :=
  !(isna (toNumeric (cellAt r xi))) && !(isna (toNumeric (cellAt r yi)))

/-- `charts._scatter_points`: require `y`; coerce `x` and `y` to numeric;
build the working frame (`color` column copied raw when present in the
table, with dict-assignment semantics if it collides with `x`/`y`); drop
rows with null `x`/`y`, truncate to the first `limit` rows, sort by `x`
and emit `float(x)`/`float(y)` points. -/
def scatter_points (df : DataFrame) (config : ChartConfig) (limit : Nat := 500) :
    Except AppError (List ScatterPoint) :=
  match config.y with
  | none => .error (.invalidArgument "Scatter charts require y column.")
  | some yname => do
      let xi ← ensure_column_exists df config.x
      let yi ← ensure_column_exists df yname
      let working := df.rows.map (scatterRow df config yname xi yi)
      let working := working.filter
        (fun w => !(isna (assocGet w config.x)) && !(isna (assocGet w yname)))
      let working := working.take limit
      let working := List.insertionSort (scatterRowLe config.x) working
      working.mapM (scatterEmitE df config yname)

/-- Smallest element of a rational list (`0` on the empty list, which the
caller rules out). -/
def listMin : List ℚ → ℚ
  | [] => 0
  | h :: t => t.foldl min h

/-- Largest element of a rational list (`0` on the empty list). -/
def listMax : List ℚ → ℚ
  | [] => 0
  | h :: t => t.foldl max h

/-- The binning stage of `charts._histogram_bins`, i.e.
`np.histogram(numeric, bins=bin_count)` over the already-coerced
non-null values: equal-width bins over `[min, max]` — expanded to
`[min - 1/2, max + 1/2]` when `min = max`, as `numpy` does for a
degenerate range — where a value lands in bin `⌊(v - lo)/width⌋` except
that a value equal to the last edge lands in the last bin.
`config.bin_count or 10` maps both `None` and `0` to `10`; empty data
yields no bins. -/
def histogramFor (numeric : List ℚ) (binCount? : Option ℕ) : List HistogramBin :=
  if numeric.isEmpty then []
  else
    let bin_count : ℕ :=
      match binCount? with
      | none => 10
      | some 0 => 10
      | some n => n
    let mn := listMin numeric
    let mx := listMax numeric
    let lo := if mn = mx then mn - 1/2 else mn
    let hi := if mn = mx then mx + 1/2 else mx
    let width := (hi - lo) / (bin_count : ℚ)
    let idxOf := fun (v : ℚ) => if v = hi then bin_count - 1 else (⌊(v - lo) / width⌋).toNat
    (List.range bin_count).map (fun (i : ℕ) =>
      { binStart := lo + (i : ℚ) * width
        binEnd := lo + ((i : ℚ) + 1) * width
        count := numeric.countP (fun v => idxOf v == i) })

/-- `charts._histogram_bins`: coerce `x` to numeric, drop nulls, and bin
the remaining values. -/
def histogram_bins (df : DataFrame) (config : ChartConfig) : Except AppError (List HistogramBin) := do
  let xi ← ensure_column_exists df config.x
  pure (histogramFor ((((seriesOf df xi).map toNumeric).filter (fun v => !(isna v))).map toQ)
    config.binCount)

/-- The payload of a chart response, tagged by chart kind. -/
inductive ChartData where
  | bar (series : List BarRecord)
  | scatter (points : List ScatterPoint)
  | histogram (bins : List HistogramBin)
deriving DecidableEq, Repr

/-- `schemas.ChartResponse` (the fields the engine fills). -/
structure ChartResponse where
  datasetId : String
  chartType : String
  data : ChartData
  config : ChartConfig
deriving DecidableEq, Repr

/-- `charts.build_chart_response`: dispatch on the chart type; anything
other than bar/scatter/histogram raises `ValueError`. -/
def build_chart_response (df : DataFrame) (config : ChartConfig) (datasetId : String) :
    Except AppError ChartResponse :=
  if config.chartType = "bar" then do
    let series ← bar_chart df config
    pure { datasetId, chartType := config.chartType, data := .bar series, config }
  else if config.chartType = "scatter" then do
    let points ← scatter_points df config
    pure { datasetId, chartType := config.chartType, data := .scatter points, config }
  else if config.chartType = "histogram" then do
    let bins ← histogram_bins df config
    pure { datasetId, chartType := config.chartType, data := .histogram bins, config }
  else .error (.invalidArgument ("Unsupported chart type: " ++ config.chartType))

/-! ## Preview renderer and profiling engine -/

/-- Render one row as a `{column: json-safe value}` record
(`to_dict(orient="records")` plus `to_python_value`). -/
def renderRow (df : DataFrame) (r : List Value) : List (String × Value) :=
  (List.range df.cols.length).map (fun i => (nameAt df i, to_python_value (cellAt r i)))

/-- `utils.dataframe_preview`: `iloc[offset : offset + limit]`, then each
row rendered as a record. -/
def dataframe_preview (df : DataFrame) (limit : Nat) (offset : Nat := 0) :
    List (List (String × Value)) :=
  ((df.rows.drop offset).take limit).map (renderRow df)

/-- `series.nunique(dropna=True)`: the number of distinct non-null
values. -/
def nuniqueOf (series : List Value) : ℕ :=
  ((series.filter (fun v => !(isna v))).dedup).length

/-- `utils.infer_role`: booleans and numbers by dtype, strings split by
the cardinality ratio `nunique / max(len, 1) > 0.6` into text versus
categorical. -/
def infer_role (dtype : DType) (series : List Value) : String :=
  match dtype with
  | .boolean => "boolean"
  | .numeric => "numeric"
  | .string =>
      let unique_ratio : ℚ := (nuniqueOf series : ℚ) / (max series.length 1 : ℕ)
      if (6 : ℚ)/10 < unique_ratio then "text" else "categorical"

/-- `utils.series_sample`: the first `limit` non-null values, converted
to JSON-safe primitives. -/
def series_sample (series : List Value) (limit : Nat := 5) : List Value :=
  ((series.filter (fun v => !(isna v))).take limit).map to_python_value

/-- One `topValues` entry `{value, count, percentage}`. -/
structure TopValue where
  value : Value
  count : ℕ
  percentage : ℚ
deriving DecidableEq, Repr

/-- `series.value_counts(dropna=True)`: the distinct non-null values
with their counts, most frequent first (the tie-break among equal counts
is implementation-defined in the source; the model uses a stable sort of
the distinct values). -/
def value_counts (series : List Value) : List (Value × ℕ) :=
  let nonNull := series.filter (fun v => !(isna v))
  (List.insertionSort (fun a b => nonNull.count b ≤ nonNull.count a) nonNull.dedup).map
    (fun v => (v, nonNull.count v))

/-- `utils.top_value_counts`: the `limit` most frequent non-null values;
`total = counts.sum() or 1` is the sum of the retained counts, and each
percentage is `count / total`. -/
def top_value_counts (series : List Value) (limit : Nat := 5) : List TopValue :=
  let counts := (value_counts series).take limit
  let total : ℕ := if (counts.map Prod.snd).sum = 0 then 1 else (counts.map Prod.snd).sum
  counts.map (fun vc =>
    { value := to_python_value vc.1
      count := vc.2
      percentage := (vc.2 : ℚ) / (total : ℚ) })

/-- The numeric `stats` object.  `stdDevSq` is the square of
`clean.std(ddof=0)` — the population variance — kept in `ℚ` because the
square root itself is irrational; the divisor distinction (population
`count` versus sample `count - 1`) lives entirely at this level. -/
structure NumericStats where
  min? : Option ℚ
  max? : Option ℚ
  mean? : Option ℚ
  median? : Option ℚ
  stdDevSq? : Option ℚ
deriving DecidableEq, Repr

/-- Pandas median: middle of the sorted values, averaging the two middle
values on even length. -/
def medianQ (l : List ℚ) : ℚ :=
  let s := List.insertionSort (· ≤ ·) l
  if l.length % 2 = 1 then s.getD (l.length / 2) 0
  else (s.getD (l.length / 2 - 1) 0 + s.getD (l.length / 2) 0) / 2

/-- Population variance `(Σ (x - mean)²) / n` — the square of
`std(ddof=0)`. -/
def popVariance (l : List ℚ) : ℚ :=
  let mean := l.sum / (l.length : ℚ)
  (l.map (fun x => (x - mean) ^ 2)).sum / (l.length : ℚ)

/-- `profiling._numeric_stats`: drop nulls, treat as floats; all-`None`
when nothing remains, otherwise min/max/mean/median and the population
standard deviation (represented by its square). -/
def numeric_stats (series : List Value) : NumericStats :=
  let clean := (series.filter (fun v => !(isna v))).map toQ
  if clean.isEmpty then
    { min? := none, max? := none, mean? := none, median? := none, stdDevSq? := none }
  else
    { min? := some (listMin clean)
      max? := some (listMax clean)
      mean? := some (clean.sum / (clean.length : ℚ))
      median? := some (medianQ clean)
      stdDevSq? := some (popVariance clean) }

/-- One column profile (the fields of `profiling.profile_dataframe`'s
per-column dict; `dtype` is kept as the tag rather than its string
rendering, and `memoryUsageBytes` is not modelled). -/
structure ColumnProfile where
  name : String
  role : String
  dtype : DType
  nonNullCount : ℕ
  missingCount : ℕ
  missingProportion : ℚ
  distinctCount : ℕ
  sampleValues : List Value
  stats? : Option NumericStats := none
  topValues? : Option (List TopValue) := none
deriving DecidableEq, Repr

/-- The per-column body of `profiling.profile_dataframe`'s loop. -/
def profile_column (name : String) (dtype : DType) (series : List Value) (total_rows : ℕ) :
    ColumnProfile :=
  let role := infer_role dtype series
  let missing := (series.filter isna).length
  { name := name
    role := role
    dtype := dtype
    nonNullCount := total_rows - missing
    missingCount := missing
    missingProportion := if total_rows = 0 then 0 else (missing : ℚ) / (total_rows : ℚ)
    distinctCount := nuniqueOf series
    sampleValues := series_sample series 5
    stats? := if role = "numeric" then some (numeric_stats series) else none
    topValues? :=
      if role = "categorical" ∨ role = "text" ∨ role = "boolean" then
        some (top_value_counts series 5)
      else none }

/-- The dataset-level profile (`memoryUsageBytes` is not modelled). -/
structure DatasetProfile where
  rowCount : ℕ
  columnCount : ℕ
  columns : List ColumnProfile
deriving DecidableEq, Repr

/-- `profiling.profile_dataframe`: profile every column independently
against the frame's row count (`convert_dtypes` is the identity on the
already-typed model). -/
def profile_dataframe (df : DataFrame) : DatasetProfile :=
  { rowCount := df.rows.length
    columnCount := df.cols.length
    columns := (List.range df.cols.length).map (fun i =>
      profile_column (nameAt df i) (dtypeAt df i) (seriesOf df i) df.rows.length) }

/-! ## Concrete frames and configs used by witnesses and counterexamples -/

/-- Three numeric rows, one null. -/
def dfFilt : DataFrame := ⟨[⟨"a", .numeric⟩], [[.num 1], [.null], [.num 2]]⟩

/-- Three rows, one column. -/
def dfPrev : DataFrame := ⟨[⟨"a", .numeric⟩], [[.num 1], [.num 2], [.num 3]]⟩

/-- A text column that is entirely null. -/
def dfAllNull : DataFrame := ⟨[⟨"c", DType.string⟩], [[.null]]⟩

/-- Two numeric columns, one row. -/
def dfXY : DataFrame := ⟨[⟨"a", .numeric⟩, ⟨"b", .numeric⟩], [[.num 1, .num 2]]⟩

/-- A scatter config whose color column does not exist in `dfXY`. -/
def cfgColorMissing : ChartConfig := ⟨"scatter", "a", some "b", some "zz", some 10, .count⟩

/-- A single-valued numeric column (degenerate histogram range). -/
def dfHist1 : DataFrame := ⟨[⟨"x", .numeric⟩], [[.num 5]]⟩

/-- Histogram of `x` with the default bin count. -/
def cfgHist10 : ChartConfig := ⟨"histogram", "x", none, none, some 10, .count⟩

/-- The numeric column `[1..10]`. -/
def dfHist10 : DataFrame :=
  ⟨[⟨"x", .numeric⟩],
   [[.num 1], [.num 2], [.num 3], [.num 4], [.num 5],
    [.num 6], [.num 7], [.num 8], [.num 9], [.num 10]]⟩

/-- Histogram of `x` with five bins. -/
def cfgHist5 : ChartConfig := ⟨"histogram", "x", none, none, some 5, .count⟩

/-- A string-typed `x` column of numeric strings next to a numeric `y`. -/
def dfStrX : DataFrame := ⟨[⟨"a", DType.string⟩, ⟨"b", .numeric⟩], [[.str "10", .num 1], [.str "9", .num 2]]⟩

/-- A scatter config whose color column is the `x` column itself. -/
def cfgColorIsX : ChartConfig := ⟨"scatter", "a", some "b", some "a", some 10, .count⟩

/-- A plain scatter config on `a`/`b` with no color. -/
def cfgScatter : ChartConfig := ⟨"scatter", "a", some "b", none, some 10, .count⟩

/-- Three categorical rows (`b`, `a`, `a`). -/
def dfBar : DataFrame := ⟨[⟨"cat", DType.string⟩], [[.str "b"], [.str "a"], [.str "a"]]⟩

/-- A count bar chart over `cat`. -/
def cfgBar : ChartConfig := ⟨"bar", "cat", none, none, some 10, .count⟩

/-- A two-valued numeric column. -/
def dfNum2 : DataFrame := ⟨[⟨"x", .numeric⟩], [[.num 1], [.num 3]]⟩

/-- The profile of the single column of `dfNum2`. -/
def cpNum2 : ColumnProfile :=
  profile_column (nameAt dfNum2 0) (dtypeAt dfNum2 0) (seriesOf dfNum2 0) dfNum2.rows.length

/-- A boolean column with two distinct values. -/
def dfBool : DataFrame := ⟨[⟨"b", .boolean⟩], [[.bool true], [.bool true], [.bool false]]⟩

/-- The profile of the single column of `dfBool`. -/
def cpBool : ColumnProfile :=
  profile_column (nameAt dfBool 0) (dtypeAt dfBool 0) (seriesOf dfBool 0) dfBool.rows.length

end DataExplorer

namespace DataExplorer

/-! ## Helper lemmas -/

theorem colIdx?_eq_none_iff (df : DataFrame) (c : String) :
    colIdx? df c = none ↔ hasColumn df c = false := by
  unfold colIdx? hasColumn
  induction df.cols with
  | nil => simp [List.findIdx?]
  | cons hd tl ih =>
      by_cases h : hd.name == c
      · simp [List.findIdx?, h]
      · simpa [List.findIdx?_cons, h, List.any_cons] using ih

theorem keepRows_replicate (rows : List (List Value)) :
    keepRows rows (List.replicate rows.length true) = rows := by
  induction rows with
  | nil => rfl
  | cons r rs ih => simp [keepRows, List.replicate, ih]

theorem keepRows_length_le (rows : List (List Value)) (m : List Bool) :
    (keepRows rows m).length ≤ rows.length := by
  induction rows generalizing m with
  | nil => cases m <;> simp [keepRows]
  | cons r rs ih =>
      cases m with
      | nil => simp [keepRows]
      | cons b bs =>
          cases b with
          | true => simpa [keepRows] using ih bs
          | false =>
              simp only [keepRows, Bool.false_eq_true, if_false, List.length_cons]
              exact Nat.le_succ_of_le (ih bs)

theorem keepRows_map_pred (rows : List (List Value)) (p : List Value → Bool) :
    keepRows rows (rows.map p) = rows.filter p := by
  induction rows with
  | nil => rfl
  | cons r rs ih =>
      by_cases h : p r <;> simp [keepRows, List.filter_cons, h, ih]

theorem andMask_replicate_true (c : List Bool) (n : ℕ) (h : c.length = n) :
    andMask (List.replicate n true) c = c := by
  induction c generalizing n with
  | nil => subst h; rfl
  | cons b bs ih =>
      subst h
      simpa [andMask, List.replicate] using ih bs.length rfl

/-! ## C10 — preview windowing -/

/-- **C10.** For every table, `limit ≥ 1` and `offset ≥ 0`, the preview
returns at most `limit` rows, namely the renderings of the rows at
positions `offset, …, offset + limit - 1` in original row order, and an
offset at or beyond the last row yields the empty list. -/
theorem dataframe_preview_window (df : DataFrame) (limit offset : ℕ) (h : 1 ≤ limit) :
    (dataframe_preview df limit offset).length ≤ limit ∧
    (∀ j, j < limit →
      (dataframe_preview df limit offset)[j]? = (df.rows[offset + j]?).map (renderRow df)) ∧
    (df.rows.length ≤ offset → dataframe_preview df limit offset = []) := by
  refine ⟨?_, ?_, ?_⟩
  · simp [dataframe_preview]
  · intro j hj
    show (((df.rows.drop offset).take limit).map (renderRow df))[j]? = _
    rw [List.getElem?_map, List.getElem?_take_of_lt hj, List.getElem?_drop]
  · intro hoff
    simp [dataframe_preview, List.drop_eq_nil_of_le hoff]

/-- Witness for C10: previewing past the end of a three-row frame is
empty, and a window of size 2 at offset 1 has at most 2 rows. -/
theorem dataframe_preview_window_witness :
    dataframe_preview dfPrev 2 7 = [] ∧ (dataframe_preview dfPrev 2 1).length ≤ 2 :=
  ⟨(dataframe_preview_window dfPrev 2 7 (by decide)).2.2 (by decide),
   (dataframe_preview_window dfPrev 2 1 (by decide)).1⟩

/-! ## C8 — filters on missing columns are skipped silently -/

theorem filterStep_of_missing (df : DataFrame) (m : List Bool) (f : Filter)
    (h : colIdx? df f.column = none) : filterStep df m f = .ok m := by
  unfold filterStep
  rw [h]

theorem foldlM_filterStep_filter (df : DataFrame) (fs : List Filter) (m : List Bool) :
    fs.foldlM (filterStep df) m
      = (fs.filter (fun f => hasColumn df f.column)).foldlM (filterStep df) m := by
  induction fs generalizing m with
  | nil => rfl
  | cons f fs ih =>
      by_cases h : hasColumn df f.column = true
      · simp only [List.filter_cons, h, if_true, List.foldlM_cons]
        cases hstep : filterStep df m f with
        | error e => rfl
        | ok m' => exact ih m'
      · have hfalse : hasColumn df f.column = false := by
          simpa using h
        have hnone : colIdx? df f.column = none := (colIdx?_eq_none_iff df f.column).mpr hfalse
        simp only [List.filter_cons, hfalse, Bool.false_eq_true, if_false, List.foldlM_cons,
          filterStep_of_missing df m f hnone]
        exact ih m

/-- **C8.** Applying filters never fails because a filter references a
column absent from the table: such filters are skipped silently, and the
result is the result of applying only the filters whose columns exist. -/
theorem apply_filters_skips_missing_columns (df : DataFrame) (fs : List Filter) :
    apply_filters df fs = apply_filters df (fs.filter (fun f => hasColumn df f.column)) := by
  unfold apply_filters
  by_cases h1 : fs.isEmpty = true
  · have : fs = [] := by simpa [List.isEmpty_iff] using h1
    subst this
    rfl
  · rw [foldlM_filterStep_filter]
    by_cases h2 : (fs.filter (fun f => hasColumn df f.column)).isEmpty = true
    · have h2' : fs.filter (fun f => hasColumn df f.column) = [] := by
        simpa [List.isEmpty_iff] using h2
      have h1' : fs.isEmpty = false := by simpa using h1
      rw [h2']
      simp [h1', keepRows_replicate]
      rfl
    · have h1' : fs.isEmpty = false := by simpa using h1
      have h2' : (fs.filter (fun f => hasColumn df f.column)).isEmpty = false := by
        simpa using h2
      simp [h1', h2']

/-! ## C6 — filtering is monotone -/

/-- Pointwise implication between row masks of equal length. -/
def MaskImp (m' m : List Bool) : Prop :=
  List.Forall₂ (fun a b => a = true → b = true) m' m

theorem maskImp_refl (m : List Bool) : MaskImp m m := by
  induction m with
  | nil => exact List.Forall₂.nil
  | cons b bs ih => exact List.Forall₂.cons (fun h => h) ih

theorem maskImp_trans {a b c : List Bool} (h₁ : MaskImp a b) (h₂ : MaskImp b c) : MaskImp a c := by
  induction h₁ generalizing c with
  | nil => cases h₂; exact List.Forall₂.nil
  | cons hab _ ih =>
      cases h₂ with
      | cons hbc htail => exact List.Forall₂.cons (fun h => hbc (hab h)) (ih htail)

theorem maskImp_andMask (m c : List Bool) (h : c.length = m.length) :
    MaskImp (andMask m c) m := by
  induction m generalizing c with
  | nil => cases c <;> simp_all [andMask] <;> exact List.Forall₂.nil
  | cons b bs ih =>
      cases c with
      | nil => simp at h
      | cons x xs =>
          refine List.Forall₂.cons ?_ (ih xs (by simpa using h))
          intro hx
          exact ((Bool.and_eq_true b x).mp hx).1

theorem maskImp_length {m' m : List Bool} (h : MaskImp m' m) : m'.length = m.length :=
  List.Forall₂.length_eq h

theorem boundMask_maskImp (dtype : DType) (series : List Value) (cmp : Value → Value → Bool)
    (bound? : Option Value) (m m' : List Bool) (hlen : series.length = m.length)
    (h : boundMask dtype series cmp bound? m = .ok m') : MaskImp m' m := by
  cases bound? with
  | none =>
      replace h : Except.ok m = Except.ok m' := h
      cases h
      exact maskImp_refl m
  | some b =>
      replace h :
          (if seriesCmpOk dtype (coerce_value_for_series dtype b) = true then
            Except.ok (andMask m (series.map (fun x => cmp x (coerce_value_for_series dtype b))))
          else Except.error ()) = Except.ok m' := h
      by_cases hok : seriesCmpOk dtype (coerce_value_for_series dtype b) = true
      · rw [if_pos hok] at h
        cases h
        exact maskImp_andMask m _ (by simpa using hlen)
      · rw [if_neg hok] at h
        exact Except.noConfusion h

theorem filterStep_maskImp (df : DataFrame) (m m' : List Bool) (f : Filter)
    (hrows : m.length = df.rows.length)
    (h : filterStep df m f = .ok m') : MaskImp m' m := by
  unfold filterStep at h
  cases hcol : colIdx? df f.column with
  | none =>
      rw [hcol] at h
      replace h : Except.ok m = Except.ok m' := h
      cases h
      exact maskImp_refl m
  | some i =>
      rw [hcol] at h
      have hser : (seriesOf df i).length = m.length := by simp [seriesOf, hrows]
      cases f with
      | equals c v =>
          by_cases hna : isna (coerce_value_for_series (dtypeAt df i) v) = true
          · replace h :
                (Except.ok (andMask m ((seriesOf df i).map isna)) : Except Unit (List Bool))
                  = Except.ok m' := by
              rw [← h]
              show _ = (if isna (coerce_value_for_series (dtypeAt df i) v) = true then _ else _)
              rw [if_pos hna]
            cases h
            exact maskImp_andMask m _ (by simpa using hser)
          · replace h :
                (Except.ok (andMask m ((seriesOf df i).map
                    (fun x => valueEqB x (coerce_value_for_series (dtypeAt df i) v))))
                  : Except Unit (List Bool)) = Except.ok m' := by
              rw [← h]
              show _ = (if isna (coerce_value_for_series (dtypeAt df i) v) = true then _ else _)
              rw [if_neg hna]
            cases h
            exact maskImp_andMask m _ (by simpa using hser)
      | range c mn? mx? =>
          replace h :
              (boundMask (dtypeAt df i) (seriesOf df i) valueGeB mn? m >>= fun m₁ =>
                boundMask (dtypeAt df i) (seriesOf df i) valueLeB mx? m₁) = Except.ok m' := h
          cases hb₁ : boundMask (dtypeAt df i) (seriesOf df i) valueGeB mn? m with
          | error e => rw [hb₁] at h; exact Except.noConfusion h
          | ok m₁ =>
              rw [hb₁] at h
              replace h : boundMask (dtypeAt df i) (seriesOf df i) valueLeB mx? m₁ = .ok m' := h
              have h₁ : MaskImp m₁ m :=
                boundMask_maskImp _ _ _ _ _ _ hser hb₁
              have h₂ : MaskImp m' m₁ :=
                boundMask_maskImp _ _ _ _ _ _ (by rw [maskImp_length h₁]; exact hser) h
              exact maskImp_trans h₂ h₁

theorem foldlM_filterStep_maskImp (df : DataFrame) (fs : List Filter) :
    ∀ (m m' : List Bool), m.length = df.rows.length →
      fs.foldlM (filterStep df) m = .ok m' → MaskImp m' m := by
  induction fs with
  | nil =>
      intro m m' _ h
      cases h
      exact maskImp_refl m
  | cons f fs ih =>
      intro m m' hrows h
      rw [List.foldlM_cons] at h
      cases hstep : filterStep df m f with
      | error e => rw [hstep] at h; cases h
      | ok m₁ =>
          rw [hstep] at h
          have h₁ : MaskImp m₁ m := filterStep_maskImp df m m₁ f hrows hstep
          have h₂ : MaskImp m' m₁ :=
            ih m₁ m' (by rw [maskImp_length h₁]; exact hrows) h
          exact maskImp_trans h₂ h₁

theorem keepRows_mono (rows : List (List Value)) {m' m : List Bool} (h : MaskImp m' m) :
    (keepRows rows m').length ≤ (keepRows rows m).length := by
  induction h generalizing rows with
  | nil => cases rows <;> simp [keepRows]
  | @cons a b m's ms hab _ ih =>
      cases rows with
      | nil => simp [keepRows]
      | cons r rs =>
          cases ha : a with
          | true =>
              have hb : b = true := hab ha
              subst hb
              subst ha
              simpa [keepRows] using ih rs
          | false =>
              subst ha
              cases b with
              | true =>
                  simp only [keepRows, Bool.false_eq_true, if_false, if_true, List.length_cons]
                  exact Nat.le_succ_of_le (ih rs)
              | false =>
                  simpa [keepRows] using ih rs

theorem apply_filters_mask_inv (df : DataFrame) (fs : List Filter) (d : DataFrame)
    (hne : fs.isEmpty = false) (h : apply_filters df fs = .ok d) :
    ∃ mask, fs.foldlM (filterStep df) (List.replicate df.rows.length true) = .ok mask ∧
      d = { df with rows := keepRows df.rows mask } := by
  unfold apply_filters at h
  simp only [hne, Bool.false_eq_true, if_false] at h
  cases hmask : fs.foldlM (filterStep df) (List.replicate df.rows.length true) with
  | error e => rw [hmask] at h; exact Except.noConfusion h
  | ok m =>
      rw [hmask] at h
      replace h : (Except.ok { df with rows := keepRows df.rows m } : Except Unit DataFrame)
        = .ok d := h
      cases h
      exact ⟨m, rfl, rfl⟩

theorem foldlM_filterStep_append_inv (df : DataFrame) (fs : List Filter) (f : Filter)
    (m₀ mask : List Bool)
    (h : (fs ++ [f]).foldlM (filterStep df) m₀ = .ok mask) :
    ∃ m₁, fs.foldlM (filterStep df) m₀ = .ok m₁ ∧ filterStep df m₁ f = .ok mask := by
  rw [List.foldlM_append] at h
  cases hmid : fs.foldlM (filterStep df) m₀ with
  | error e => rw [hmid] at h; exact Except.noConfusion h
  | ok m₁ =>
      rw [hmid] at h
      replace h : (filterStep df m₁ f >>= fun i => (pure i : Except Unit (List Bool)))
        = .ok mask := h
      cases hstep : filterStep df m₁ f with
      | error e => rw [hstep] at h; exact Except.noConfusion h
      | ok m₂ =>
          rw [hstep] at h
          replace h : (Except.ok m₂ : Except Unit (List Bool)) = .ok mask := h
          cases h
          exact ⟨m₁, rfl, hstep⟩

/-- **C6.** Filtering is monotone: the filtered frame never has more rows
than the input frame, and appending one more filter never increases the
row count of the (successful) result. -/
theorem apply_filters_monotone (df : DataFrame) (fs : List Filter) (f : Filter)
    (d₁ : DataFrame) (h₁ : apply_filters df fs = .ok d₁) :
    d₁.rows.length ≤ df.rows.length ∧
    (∀ d₂, apply_filters df (fs ++ [f]) = .ok d₂ → d₂.rows.length ≤ d₁.rows.length) := by
  have hstart : (List.replicate df.rows.length true).length = df.rows.length := by simp
  have happend : (fs ++ [f]).isEmpty = false := by cases fs <;> simp
  by_cases hfs : fs.isEmpty = true
  · have hnil : fs = [] := by simpa [List.isEmpty_iff] using hfs
    subst hnil
    have hd₁ : df = d₁ := by simpa [apply_filters] using h₁
    subst hd₁
    refine ⟨le_refl _, ?_⟩
    intro d₂ h₂
    obtain ⟨mask, _, hd₂⟩ := apply_filters_mask_inv df ([] ++ [f]) d₂ happend h₂
    subst hd₂
    exact keepRows_length_le df.rows mask
  · have hfs' : fs.isEmpty = false := by simpa using hfs
    obtain ⟨m₁, hmask, hd₁⟩ := apply_filters_mask_inv df fs d₁ hfs' h₁
    subst hd₁
    refine ⟨keepRows_length_le df.rows m₁, ?_⟩
    intro d₂ h₂
    obtain ⟨mask₂, hmask₂, hd₂⟩ := apply_filters_mask_inv df (fs ++ [f]) d₂ happend h₂
    subst hd₂
    obtain ⟨m₁x, hm₁x, hstep⟩ := foldlM_filterStep_append_inv df fs f _ _ hmask₂
    rw [hmask] at hm₁x
    replace hm₁x : m₁ = m₁x := by
      cases hm₁x
      rfl
    subst hm₁x
    have himp : MaskImp mask₂ m₁ := by
      refine filterStep_maskImp df m₁ mask₂ f ?_ hstep
      have hm₁ := foldlM_filterStep_maskImp df fs _ m₁ hstart hmask
      rw [maskImp_length hm₁]
      exact hstart
    exact keepRows_mono df.rows himp


/-- Witness for C6 at a concrete frame and filter list. -/
theorem apply_filters_monotone_witness :
    ∃ d₁ : DataFrame,
      apply_filters dfFilt [Filter.range "a" (some (.num 0)) none] = .ok d₁ ∧
      d₁.rows.length ≤ dfFilt.rows.length := by
  refine ⟨⟨[⟨"a", .numeric⟩], [[.num 1], [.num 2]]⟩, by rfl, ?_⟩
  exact (apply_filters_monotone dfFilt [Filter.range "a" (some (.num 0)) none]
    (Filter.equals "a" (.num 2)) _ (by rfl)).1

/-! ## C7 — Equals filter semantics -/

theorem filterStep_equals (df : DataFrame) (c : String) (v : Value) (i : ℕ) (m : List Bool)
    (hc : colIdx? df c = some i) :
    filterStep df m (.equals c v)
      = (if isna (coerce_value_for_series (dtypeAt df i) v) = true then
          .ok (andMask m ((seriesOf df i).map isna))
        else
          .ok (andMask m ((seriesOf df i).map
            (fun x => valueEqB x (coerce_value_for_series (dtypeAt df i) v))))) := by
  unfold filterStep
  rw [show Filter.column (.equals c v) = c from rfl, hc]

/-- **C7.** For a column present in the table, a single `Equals` filter
whose literal is null — or coerces to null for the column's dtype, e.g. a
whitespace-only string against a numeric column — selects exactly the
rows whose value in that column is null; a literal with a non-null
coercion selects exactly the rows whose value equals the coerced
literal. -/
theorem apply_filters_equals (df : DataFrame) (c : String) (v : Value) (i : ℕ)
    (hc : colIdx? df c = some i) :
    (isna (coerce_value_for_series (dtypeAt df i) v) = true →
      apply_filters df [.equals c v]
        = .ok { df with rows := df.rows.filter (fun r => isna (cellAt r i)) }) ∧
    (isna (coerce_value_for_series (dtypeAt df i) v) = false →
      apply_filters df [.equals c v]
        = .ok { df with rows := df.rows.filter (fun r => valueEqB (cellAt r i) (coerce_value_for_series (dtypeAt df i) v)) }) := by
  have hmask : ∀ p : Value → Bool,
      andMask (List.replicate df.rows.length true) ((seriesOf df i).map p)
        = df.rows.map (fun r => p (cellAt r i)) := by
    intro p
    rw [show (seriesOf df i).map p = df.rows.map (fun r => p (cellAt r i)) by
      simp [seriesOf, List.map_map]]
    exact andMask_replicate_true _ _ (by simp)
  constructor <;> intro hna
  · show (if ([Filter.equals c v] : List Filter).isEmpty = true then _ else _) = _
    rw [if_neg (by simp)]
    show (List.foldlM (filterStep df) (List.replicate df.rows.length true) [.equals c v] >>= _)
      = _
    rw [List.foldlM_cons, filterStep_equals df c v i _ hc, if_pos hna]
    show (Except.ok { df with
        rows := keepRows df.rows (andMask (List.replicate df.rows.length true)
          ((seriesOf df i).map isna)) } : Except Unit DataFrame) = _
    rw [hmask isna, keepRows_map_pred]
  · show (if ([Filter.equals c v] : List Filter).isEmpty = true then _ else _) = _
    rw [if_neg (by simp)]
    show (List.foldlM (filterStep df) (List.replicate df.rows.length true) [.equals c v] >>= _)
      = _
    rw [List.foldlM_cons, filterStep_equals df c v i _ hc,
      if_neg (by rw [hna]; exact Bool.false_ne_true)]
    show (Except.ok { df with
        rows := keepRows df.rows (andMask (List.replicate df.rows.length true)
          ((seriesOf df i).map (fun x =>
            valueEqB x (coerce_value_for_series (dtypeAt df i) v)))) }
        : Except Unit DataFrame) = _
    rw [hmask _, keepRows_map_pred]

/-- Witness for C7: a whitespace-only literal against a numeric column
selects exactly the null rows of `dfFilt`. -/
theorem apply_filters_equals_witness :
    apply_filters dfFilt [.equals "a" (.str " ")]
      = .ok { dfFilt with rows := dfFilt.rows.filter (fun r => isna (cellAt r 0)) } :=
  (apply_filters_equals dfFilt "a" (.str " ") 0 (by rfl)).1 (by decide)

/-! ## Order lemmas for the sort relations -/

theorem char_eq_of_toNat_eq {a b : Char} (h : a.toNat = b.toNat) : a = b :=
  Char.eq_of_val_eq (UInt32.ext h)

theorem strLeB_total (as : List Char) : ∀ bs, strLeB as bs = true ∨ strLeB bs as = true := by
  induction as with
  | nil => intro bs; left; rfl
  | cons a as ih =>
      intro bs
      cases bs with
      | nil => right; rfl
      | cons b bs =>
          by_cases h1 : a.toNat < b.toNat
          · left; simp [strLeB, h1]
          · by_cases h2 : b.toNat < a.toNat
            · right; simp [strLeB, h1, h2]
            · cases ih bs with
              | inl h => left; simp [strLeB, h1, h2, h]
              | inr h => right; simp [strLeB, h1, h2, h]

theorem strLeB_trans (as : List Char) :
    ∀ bs cs, strLeB as bs = true → strLeB bs cs = true → strLeB as cs = true := by
  induction as with
  | nil => intro bs cs _ _; rfl
  | cons a as ih =>
      intro bs cs h1 h2
      cases bs with
      | nil => simp [strLeB] at h1
      | cons b bs =>
          cases cs with
          | nil => simp [strLeB] at h2
          | cons c cs =>
              simp only [strLeB] at h1 h2 ⊢
              by_cases hab : a.toNat < b.toNat
              · by_cases hbc : b.toNat < c.toNat
                · simp [Nat.lt_trans hab hbc]
                · by_cases hcb : c.toNat < b.toNat
                  · simp [hbc, hcb] at h2
                  · have : b.toNat = c.toNat := by omega
                    simp [this ▸ hab]
              · by_cases hba : b.toNat < a.toNat
                · simp [hab, hba] at h1
                · have hab' : a.toNat = b.toNat := by omega
                  by_cases hbc : b.toNat < c.toNat
                  · simp [hab' ▸ hbc]
                  · by_cases hcb : c.toNat < b.toNat
                    · simp [hbc, hcb] at h2
                    · have hbc' : b.toNat = c.toNat := by omega
                      simp only [hab, hba, if_false, if_neg] at h1
                      simp only [hbc, hcb, if_false, if_neg] at h2
                      have hac : ¬ a.toNat < c.toNat := by omega
                      have hca : ¬ c.toNat < a.toNat := by omega
                      simp only [hac, hca, if_false, if_neg]
                      exact ih bs cs (by simpa [hab, hba] using h1) (by simpa [hbc, hcb] using h2)

theorem strLeB_antisymm (as : List Char) :
    ∀ bs, strLeB as bs = true → strLeB bs as = true → as = bs := by
  induction as with
  | nil =>
      intro bs _ h2
      cases bs with
      | nil => rfl
      | cons b bs => simp [strLeB] at h2
  | cons a as ih =>
      intro bs h1 h2
      cases bs with
      | nil => simp [strLeB] at h1
      | cons b bs =>
          simp only [strLeB] at h1 h2
          by_cases hab : a.toNat < b.toNat
          · have hba : ¬ b.toNat < a.toNat := by omega
            simp [hba, hab] at h2
          · by_cases hba : b.toNat < a.toNat
            · simp [hab, hba] at h1
            · have : a = b := char_eq_of_toNat_eq (by omega)
              subst this
              rw [ih bs (by simpa [hab, hba] using h1) (by simpa [hab, hba] using h2)]

theorem string_eq_of_toList_eq {s t : String} (h : s.toList = t.toList) : s = t := by
  cases s
  cases t
  simp only [String.toList] at h
  rw [h]

theorem valueLe_total (a b : Value) : valueLe a b = true ∨ valueLe b a = true := by
  cases a <;> cases b <;>
    simp only [valueLe, tagRank, decide_eq_true_eq] <;>
    first
      | exact Or.inl trivial
      | exact Or.inl rfl
      | exact Or.inr rfl
      | exact le_total _ _
      | exact strLeB_total _ _
      | omega
      | (rename_i x y; cases x <;> cases y <;> simp)

theorem valueLe_trans (a b c : Value)
    (h1 : valueLe a b = true) (h2 : valueLe b c = true) : valueLe a c = true := by
  cases a <;> cases b <;> cases c <;>
    simp only [valueLe, tagRank, decide_eq_true_eq] at h1 h2 ⊢ <;>
    first
      | rfl
      | omega
      | exact le_trans h1 h2
      | exact strLeB_trans _ _ _ h1 h2
      | (rename_i x y z; cases x <;> cases y <;> cases z <;> simp_all)
      | simp_all

theorem valueLe_antisymm (a b : Value)
    (h1 : valueLe a b = true) (h2 : valueLe b a = true) : a = b := by
  cases a <;> cases b <;>
    simp only [valueLe, tagRank, decide_eq_true_eq] at h1 h2 <;>
    first
      | rfl
      | omega
      | exact congrArg Value.num (le_antisymm h1 h2)
      | exact congrArg Value.str (string_eq_of_toList_eq (strLeB_antisymm _ _ h1 h2))
      | (rename_i x y; cases x <;> cases y <;> simp_all)

theorem optValueLe_total (a b : Option Value) :
    optValueLe a b = true ∨ optValueLe b a = true := by
  cases a <;> cases b <;> simp only [optValueLe] <;>
    first
      | exact Or.inl trivial
      | exact Or.inr trivial
      | exact Or.inl rfl
      | exact Or.inr rfl
      | exact valueLe_total _ _

theorem optValueLe_trans (a b c : Option Value)
    (h1 : optValueLe a b = true) (h2 : optValueLe b c = true) : optValueLe a c = true := by
  cases a <;> cases b <;> cases c <;> simp only [optValueLe] at h1 h2 ⊢ <;>
    first
      | rfl
      | exact valueLe_trans _ _ _ h1 h2
      | exact Bool.noConfusion h1
      | exact Bool.noConfusion h2

theorem keyLeP_total (a b : GroupKey) : keyLeP a b ∨ keyLeP b a := by
  unfold keyLeP keyLe
  by_cases h : a.1 = b.1
  · rw [if_pos h, if_pos h.symm]
    exact optValueLe_total _ _
  · rw [if_neg h, if_neg (fun hh => h hh.symm)]
    exact valueLe_total _ _

theorem keyLeP_trans (a b c : GroupKey) (h1 : keyLeP a b) (h2 : keyLeP b c) : keyLeP a c := by
  unfold keyLeP keyLe at *
  by_cases hab : a.1 = b.1
  · by_cases hbc : b.1 = c.1
    · have hac : a.1 = c.1 := hab.trans hbc
      rw [if_pos hab] at h1
      rw [if_pos hbc] at h2
      rw [if_pos hac]
      exact optValueLe_trans _ _ _ h1 h2
    · have hac : ¬ a.1 = c.1 := fun h => hbc (hab ▸ h)
      rw [if_neg hbc] at h2
      rw [if_neg hac, hab]
      exact h2
  · by_cases hbc : b.1 = c.1
    · have hac : ¬ a.1 = c.1 := fun h => hab (h.trans hbc.symm)
      rw [if_neg hab] at h1
      rw [if_neg hac, ← hbc]
      exact h1
    · rw [if_neg hab] at h1
      rw [if_neg hbc] at h2
      by_cases hac : a.1 = c.1
      · have h2x : valueLe b.1 a.1 = true := by rw [hac]; exact h2
        exact absurd (valueLe_antisymm _ _ h1 h2x) hab
      · rw [if_neg hac]
        exact valueLe_trans _ _ _ h1 h2

/-! ## C5 — bar-chart rows are emitted in ascending group-key order -/

theorem to_python_value_id (v : Value) : to_python_value v = v := by
  cases v <;> rfl

theorem option_map_to_python_value (o : Option Value) : o.map to_python_value = o := by
  cases o <;> simp [to_python_value_id]

theorem groupRows_sorted (working : List (List Value)) (xi : Nat) (ci? : Option Nat) :
    List.Pairwise (fun a b => keyLeP a.1 b.1) (groupRows working xi ci?) := by
  unfold groupRows
  rw [List.pairwise_map]
  exact @List.sorted_insertionSort GroupKey keyLeP _ ⟨keyLeP_total⟩ ⟨keyLeP_trans⟩ _

theorem barRecords_pairwise (grouped : List (GroupKey × ℚ))
    (hg : List.Pairwise (fun a b => keyLeP a.1 b.1) grouped) :
    List.Pairwise (fun a b => keyLeP (a.category, a.color) (b.category, b.color))
      (grouped.map (fun kv =>
        ({ category := to_python_value kv.1.1, value := kv.2,
           color := kv.1.2.map to_python_value } : BarRecord))) := by
  rw [List.pairwise_map]
  refine hg.imp ?_
  intro a b hab
  simpa [to_python_value_id, option_map_to_python_value] using hab

theorem pairwise_fst_map_groupRows (w : List (List Value)) (xi : Nat) (ci? : Option Nat)
    (f : GroupKey × List (List Value) → ℚ) :
    List.Pairwise (fun a b => keyLeP a.1 b.1)
      ((groupRows w xi ci?).map (fun kg => (kg.1, f kg))) := by
  rw [List.pairwise_map]
  exact (groupRows_sorted w xi ci?).imp (fun h => h)

theorem barSumAvg_sorted (df : DataFrame) (working : List (List Value)) (agg : Aggregation)
    (y? : Option String) (xi : Nat) (ci? : Option Nat)
    (grouped : List (GroupKey × ℚ)) (h : barSumAvg df working agg y? xi ci? = .ok grouped) :
    List.Pairwise (fun a b => keyLeP a.1 b.1) grouped := by
  unfold barSumAvg at h
  split at h
  · cases h
  · rename_i yname
    cases hyy : ensure_column_exists df yname with
    | error e => rw [hyy] at h; cases h
    | ok yi =>
        rw [hyy] at h
        cases h
        exact pairwise_fst_map_groupRows _ xi ci? _

theorem barGrouped_sorted (df : DataFrame) (config : ChartConfig) (xi : Nat) (ci? : Option Nat)
    (grouped : List (GroupKey × ℚ)) (h : barGrouped df config xi ci? = .ok grouped) :
    List.Pairwise (fun a b => keyLeP a.1 b.1) grouped := by
  unfold barGrouped at h
  cases hagg : config.aggregation with
  | count =>
      rw [hagg] at h
      cases h
      exact pairwise_fst_map_groupRows _ xi ci? _
  | sum =>
      rw [hagg] at h
      exact barSumAvg_sorted df _ .sum config.y xi ci? grouped h
  | avg =>
      rw [hagg] at h
      exact barSumAvg_sorted df _ .avg config.y xi ci? grouped h

/-- **C5.** For every table and bar-chart config, the emitted series rows
are ordered ascending by group key: by `x`, then by `color` when a color
column is configured. -/
theorem bar_chart_sorted (df : DataFrame) (config : ChartConfig) (recs : List BarRecord)
    (h : bar_chart df config = .ok recs) :
    List.Pairwise (fun a b => keyLeP (a.category, a.color) (b.category, b.color)) recs := by
  unfold bar_chart at h
  cases hex : ensure_column_exists df config.x with
  | error e => rw [hex] at h; cases h
  | ok xi =>
      rw [hex] at h
      replace h :
          (colorIdx? df config.color >>= fun ci? =>
            barGrouped df config xi ci? >>= fun grouped =>
              pure (grouped.map (fun kv =>
                ({ category := to_python_value kv.1.1, value := kv.2,
                   color := kv.1.2.map to_python_value } : BarRecord)))) = .ok recs := h
      cases hci : colorIdx? df config.color with
      | error e => rw [hci] at h; cases h
      | ok ci? =>
          rw [hci] at h
          replace h :
              (barGrouped df config xi ci? >>= fun grouped =>
                (pure (grouped.map (fun kv =>
                  ({ category := to_python_value kv.1.1, value := kv.2,
                     color := kv.1.2.map to_python_value } : BarRecord)))
                  : Except AppError (List BarRecord))) = .ok recs := h
          cases hg : barGrouped df config xi ci? with
          | error e => rw [hg] at h; cases h
          | ok grouped =>
              rw [hg] at h
              cases h
              exact barRecords_pairwise grouped
                (barGrouped_sorted df config xi ci? grouped hg)

/-- Witness for C5: counting `cat` over `dfBar` yields rows for `a` then
`b`, in ascending key order. -/
theorem bar_chart_sorted_witness :
    List.Pairwise (fun a b => keyLeP (a.category, a.color) (b.category, b.color))
      [({ category := .str "a", value := 2, color := none } : BarRecord),
       ({ category := .str "b", value := 1, color := none } : BarRecord)] :=
  bar_chart_sorted dfBar cfgBar _ (by decide)

/-! ## C2 — chart error taxonomy -/

theorem except_ok_bind {ε α β : Type _} (a : α) (f : α → Except ε β) :
    (Except.ok a >>= f) = f a := rfl

theorem except_error_bind {ε α β : Type _} (e : ε) (f : α → Except ε β) :
    (Except.error e >>= f : Except ε β) = Except.error e := rfl

theorem ensure_ok_of_hasColumn (df : DataFrame) (c : String) (h : hasColumn df c = true) :
    ∃ i, ensure_column_exists df c = .ok i := by
  unfold ensure_column_exists
  cases hc : colIdx? df c with
  | some i => exact ⟨i, rfl⟩
  | none =>
      rw [(colIdx?_eq_none_iff df c).mp hc] at h
      cases h

theorem ensure_error_of_not_hasColumn (df : DataFrame) (c : String)
    (h : hasColumn df c = false) :
    ensure_column_exists df c = .error (.notFound c) := by
  unfold ensure_column_exists
  rw [(colIdx?_eq_none_iff df c).mpr h]

/-- The claim demands NotFound for any config-referenced column absent
from the table, but `_scatter_points` silently ignores an absent color
column: this scatter chart references the missing column `zz` and still
succeeds. -/
theorem build_chart_ignores_missing_scatter_color :
    cfgColorMissing.color = some "zz" ∧ hasColumn dfXY "zz" = false ∧
    (build_chart_response dfXY cfgColorMissing "d").isOk = true := by
  refine ⟨rfl, rfl, ?_⟩
  decide

/-- **C2 (amended).** Building a chart fails with InvalidArgument on an
unsupported chart type, and on a missing `y` for scatter or sum/avg bar
charts (for bar only after `x` and a configured `color` pass their
existence checks, which run first); it fails with NotFound naming the
column when a column the chart actually uses is absent: `x` for every
chart type, a configured `color` for bar, and `y` for scatter and for
sum/avg bar.  Scatter's `color` and histogram's `y`/`color` are not
required to exist. -/
theorem build_chart_errors (df : DataFrame) (config : ChartConfig) (id : String) :
    (config.chartType ∉ (["bar", "scatter", "histogram"] : List String) →
      build_chart_response df config id
        = .error (.invalidArgument ("Unsupported chart type: " ++ config.chartType))) ∧
    (config.chartType = "scatter" → config.y = none →
      build_chart_response df config id
        = .error (.invalidArgument "Scatter charts require y column.")) ∧
    (config.chartType = "bar" → config.aggregation ≠ .count → config.y = none →
      hasColumn df config.x = true → (∀ c, config.color = some c → hasColumn df c = true) →
      build_chart_response df config id
        = .error (.invalidArgument "Bar charts with sum/avg require y column.")) ∧
    (config.chartType = "bar" → hasColumn df config.x = false →
      build_chart_response df config id = .error (.notFound config.x)) ∧
    (config.chartType = "bar" → hasColumn df config.x = true →
      ∀ c, config.color = some c → hasColumn df c = false →
      build_chart_response df config id = .error (.notFound c)) ∧
    (config.chartType = "bar" → config.aggregation ≠ .count → ∀ yn, config.y = some yn →
      hasColumn df config.x = true → (∀ c, config.color = some c → hasColumn df c = true) →
      hasColumn df yn = false →
      build_chart_response df config id = .error (.notFound yn)) ∧
    (config.chartType = "scatter" → ∀ yn, config.y = some yn → hasColumn df config.x = false →
      build_chart_response df config id = .error (.notFound config.x)) ∧
    (config.chartType = "scatter" → ∀ yn, config.y = some yn → hasColumn df config.x = true →
      hasColumn df yn = false →
      build_chart_response df config id = .error (.notFound yn)) ∧
    (config.chartType = "histogram" → hasColumn df config.x = false →
      build_chart_response df config id = .error (.notFound config.x)) := by
  refine ⟨?_, ?_, ?_, ?_, ?_, ?_, ?_, ?_, ?_⟩
  · intro hct
    have h1 : ¬ config.chartType = "bar" := by simp_all
    have h2 : ¬ config.chartType = "scatter" := by simp_all
    have h3 : ¬ config.chartType = "histogram" := by simp_all
    simp [build_chart_response, h1, h2, h3]
  · intro hct hy
    have h1 : ¬ config.chartType = "bar" := by simp [hct]
    simp [build_chart_response, h1, hct, scatter_points, hy, except_error_bind]
  · intro hct hagg hy hx hcolor
    obtain ⟨xi, hxi⟩ := ensure_ok_of_hasColumn df config.x hx
    have hci : ∃ o, colorIdx? df config.color = .ok o := by
      cases hc : config.color with
      | none => exact ⟨none, rfl⟩
      | some c =>
          obtain ⟨ci, hcok⟩ := ensure_ok_of_hasColumn df c (hcolor c hc)
          exact ⟨some ci, by simp [colorIdx?, hcok, except_ok_bind]⟩
    obtain ⟨ci?, hci⟩ := hci
    have hgr : barGrouped df config xi ci?
        = .error (.invalidArgument "Bar charts with sum/avg require y column.") := by
      unfold barGrouped
      cases hagg' : config.aggregation with
      | count => exact absurd hagg' hagg
      | sum => simp [barSumAvg, hy]
      | avg => simp [barSumAvg, hy]
    simp [build_chart_response, hct, bar_chart, hxi, except_ok_bind, hci, hgr,
      except_error_bind]
  · intro hct hx
    have hxe := ensure_error_of_not_hasColumn df config.x hx
    simp [build_chart_response, hct, bar_chart, hxe, except_error_bind]
  · intro hct hx c hc hcmiss
    obtain ⟨xi, hxi⟩ := ensure_ok_of_hasColumn df config.x hx
    have hce := ensure_error_of_not_hasColumn df c hcmiss
    have hci : colorIdx? df config.color = .error (.notFound c) := by
      simp [colorIdx?, hc, hce, except_error_bind]
    simp [build_chart_response, hct, bar_chart, hxi, except_ok_bind, hci, except_error_bind]
  · intro hct hagg yn hy hx hcolor hymiss
    obtain ⟨xi, hxi⟩ := ensure_ok_of_hasColumn df config.x hx
    have hci : ∃ o, colorIdx? df config.color = .ok o := by
      cases hc : config.color with
      | none => exact ⟨none, rfl⟩
      | some c =>
          obtain ⟨ci, hcok⟩ := ensure_ok_of_hasColumn df c (hcolor c hc)
          exact ⟨some ci, by simp [colorIdx?, hcok, except_ok_bind]⟩
    obtain ⟨ci?, hci⟩ := hci
    have hye := ensure_error_of_not_hasColumn df yn hymiss
    have hgr : barGrouped df config xi ci? = .error (.notFound yn) := by
      unfold barGrouped
      cases hagg' : config.aggregation with
      | count => exact absurd hagg' hagg
      | sum => simp [barSumAvg, hy, hye, except_error_bind]
      | avg => simp [barSumAvg, hy, hye, except_error_bind]
    simp [build_chart_response, hct, bar_chart, hxi, except_ok_bind, hci, hgr,
      except_error_bind]
  · intro hct yn hy hx
    have h1 : ¬ config.chartType = "bar" := by simp [hct]
    have hxe := ensure_error_of_not_hasColumn df config.x hx
    simp [build_chart_response, h1, hct, scatter_points, hy, hxe, except_error_bind]
  · intro hct yn hy hx hymiss
    have h1 : ¬ config.chartType = "bar" := by simp [hct]
    obtain ⟨xi, hxi⟩ := ensure_ok_of_hasColumn df config.x hx
    have hye := ensure_error_of_not_hasColumn df yn hymiss
    simp [build_chart_response, h1, hct, scatter_points, hy, hxi, hye,
      except_ok_bind, except_error_bind]
  · intro hct hx
    have h1 : ¬ config.chartType = "bar" := by simp [hct]
    have h2 : ¬ config.chartType = "scatter" := by simp [hct]
    have hxe := ensure_error_of_not_hasColumn df config.x hx
    simp [build_chart_response, h1, h2, hct, histogram_bins, hxe, except_error_bind]

/-- Witness for C2: an unsupported chart type is rejected with
InvalidArgument at a concrete frame and config. -/
theorem build_chart_errors_witness :
    build_chart_response dfXY ⟨"pie", "a", none, none, some 10, .count⟩ "d"
      = .error (.invalidArgument "Unsupported chart type: pie") :=
  (build_chart_errors dfXY ⟨"pie", "a", none, none, some 10, .count⟩ "d").1 (by decide)

/-! ## C1 — topValues counts and percentages -/

theorem profile_columns_get (df : DataFrame) (i : Nat) (cp : ColumnProfile)
    (h : (profile_dataframe df).columns.get? i = some cp) :
    cp = profile_column (nameAt df i) (dtypeAt df i) (seriesOf df i) df.rows.length := by
  unfold profile_dataframe at h
  simp only [List.get?_map] at h
  cases hr : (List.range df.cols.length).get? i with
  | none => rw [hr] at h; cases h
  | some j =>
      rw [hr] at h
      obtain ⟨hlt, hget⟩ := List.get?_eq_some.mp hr
      have hj : j = i := by rw [← hget]; exact List.get_range i hlt
      subst hj
      simpa using h.symm

theorem length_filter_not_isna (l : List Value) :
    (l.filter (fun v => !(isna v))).length + (l.filter isna).length = l.length := by
  induction l with
  | nil => rfl
  | cons v vs ih =>
      cases hv : isna v <;> simp [List.filter_cons, hv, ← ih] <;> omega

theorem value_counts_mem (series : List Value) (vc : Value × ℕ)
    (h : vc ∈ value_counts series) :
    vc.2 = (series.filter (fun v => !(isna v))).count vc.1 ∧
      vc.1 ∈ (series.filter (fun v => !(isna v))).dedup := by
  unfold value_counts at h
  obtain ⟨v, hv, rfl⟩ := List.mem_map.mp h
  refine ⟨rfl, ?_⟩
  exact ((List.perm_insertionSort _ _).mem_iff).mp hv

theorem value_counts_sum (series : List Value) :
    ((value_counts series).map Prod.snd).sum
      = (series.filter (fun v => !(isna v))).length := by
  unfold value_counts
  rw [List.map_map]
  have hperm :
      (List.insertionSort
          (fun a b => (series.filter (fun v => !(isna v))).count b
            ≤ (series.filter (fun v => !(isna v))).count a)
          (series.filter (fun v => !(isna v))).dedup).map
        (fun v => (series.filter (fun v => !(isna v))).count v)
        |>.Perm
        ((series.filter (fun v => !(isna v))).dedup.map
          (fun v => (series.filter (fun v => !(isna v))).count v)) :=
    (List.perm_insertionSort _ _).map _
  calc ((List.insertionSort _ _).map _).sum
      = ((series.filter (fun v => !(isna v))).dedup.map
          (fun v => (series.filter (fun v => !(isna v))).count v)).sum := hperm.sum_eq
    _ = (series.filter (fun v => !(isna v))).length :=
        List.sum_map_count_dedup_eq_length _

theorem value_counts_length (series : List Value) :
    (value_counts series).length = (series.filter (fun v => !(isna v))).dedup.length := by
  unfold value_counts
  rw [List.length_map, List.length_insertionSort]

/-- **C1 (amended).** For every column whose role is categorical, text or
boolean, `topValues` is present and each entry's percentage is its count
divided by the total of the listed counts (`totalNonNullCounted`); when
the column has fewer than 5 distinct non-null values that total is
exactly the column's non-null count, and when it moreover has at least
one non-null value the percentages sum to exactly 1. -/
theorem topValues_percentages (df : DataFrame) (i : Nat) (cp : ColumnProfile)
    (h : (profile_dataframe df).columns.get? i = some cp)
    (hrole : cp.role = "categorical" ∨ cp.role = "text" ∨ cp.role = "boolean") :
    ∃ tv, cp.topValues? = some tv ∧
      (∀ e ∈ tv, 0 < e.count ∧
        e.percentage = (e.count : ℚ) / (((tv.map TopValue.count).sum : ℕ) : ℚ)) ∧
      (cp.distinctCount < 5 → (tv.map TopValue.count).sum = cp.nonNullCount) ∧
      (0 < cp.distinctCount → cp.distinctCount < 5 →
        (tv.map TopValue.percentage).sum = 1) := by
  have hcp := profile_columns_get df i cp h
  subst hcp
  have htv : (profile_column (nameAt df i) (dtypeAt df i) (seriesOf df i) df.rows.length).topValues?
      = some (top_value_counts (seriesOf df i) 5) := by
    unfold profile_column
    simp only
    rw [if_pos]
    rcases hrole with h | h | h <;>
      simp [profile_column] at h <;>
      simp [h]
  refine ⟨top_value_counts (seriesOf df i) 5, htv, ?_, ?_, ?_⟩
  · -- each entry: positive count, percentage = count / total counted
    intro e he
    simp only [top_value_counts] at he ⊢
    obtain ⟨vc, hvc, rfl⟩ := List.mem_map.mp he
    have hvc' : vc ∈ value_counts (seriesOf df i) := List.take_subset _ _ hvc
    obtain ⟨hcount, hmem⟩ := value_counts_mem (seriesOf df i) vc hvc'
    have hpos : 0 < vc.2 := by
      rw [hcount]
      exact List.count_pos_iff_mem.mpr (List.mem_dedup.mp hmem)
    refine ⟨hpos, ?_⟩
    have hsumpos : 0 < (((value_counts (seriesOf df i)).take 5).map Prod.snd).sum := by
      have hle : vc.2 ≤ (((value_counts (seriesOf df i)).take 5).map Prod.snd).sum :=
        List.single_le_sum (fun x _ => Nat.zero_le x) _ (List.mem_map_of_mem Prod.snd hvc)
      omega
    rw [if_neg (by omega)]
    simp only [List.map_map]
    rfl
  · -- fewer than 5 distinct → the total counted is the non-null count
    intro hdist
    have hdist' : ((seriesOf df i).filter (fun v => !(isna v))).dedup.length < 5 := by
      simpa [profile_column, nuniqueOf] using hdist
    have hlen : (value_counts (seriesOf df i)).length ≤ 5 := by
      rw [value_counts_length]
      omega
    have htake : (value_counts (seriesOf df i)).take 5 = value_counts (seriesOf df i) :=
      List.take_all_of_le hlen
    simp only [top_value_counts, htake, List.map_map]
    show ((value_counts (seriesOf df i)).map Prod.snd).sum = _
    rw [value_counts_sum]
    simp only [profile_column]
    have hc := length_filter_not_isna (seriesOf df i)
    have hslen : (seriesOf df i).length = df.rows.length := by simp [seriesOf]
    omega
  · -- between 1 and 4 distinct → the percentages sum to exactly 1
    intro hpos hdist
    have hdpos : 0 < ((seriesOf df i).filter (fun v => !(isna v))).dedup.length := by
      simpa [profile_column, nuniqueOf] using hpos
    have hdist' : ((seriesOf df i).filter (fun v => !(isna v))).dedup.length < 5 := by
      simpa [profile_column, nuniqueOf] using hdist
    have hlen : (value_counts (seriesOf df i)).length ≤ 5 := by
      rw [value_counts_length]
      omega
    have htake : (value_counts (seriesOf df i)).take 5 = value_counts (seriesOf df i) :=
      List.take_all_of_le hlen
    have hsum : ((value_counts (seriesOf df i)).map Prod.snd).sum
        = ((seriesOf df i).filter (fun v => !(isna v))).length :=
      value_counts_sum (seriesOf df i)
    have hnnpos : 0 < ((seriesOf df i).filter (fun v => !(isna v))).length := by
      cases hnn : (seriesOf df i).filter (fun v => !(isna v)) with
      | nil => rw [hnn] at hdpos; simp at hdpos
      | cons a l => simp [hnn]
    simp only [top_value_counts, htake, List.map_map, hsum]
    rw [if_neg (by omega)]
    show ((value_counts (seriesOf df i)).map (fun vc =>
        ((vc.2 : ℚ) / ((((seriesOf df i).filter (fun v => !(isna v))).length : ℕ) : ℚ)))).sum = 1
    simp only [div_eq_mul_inv]
    rw [List.sum_map_mul_right]
    have hcast : ((value_counts (seriesOf df i)).map (fun vc => ((vc.2 : ℕ) : ℚ))).sum
        = ((((seriesOf df i).filter (fun v => !(isna v))).length : ℕ) : ℚ) := by
      rw [show ((value_counts (seriesOf df i)).map (fun vc => ((vc.2 : ℕ) : ℚ)))
            = (((value_counts (seriesOf df i)).map Prod.snd).map (fun n : ℕ => (n : ℚ))) by
          rw [List.map_map]; rfl]
      rw [← Nat.cast_list_sum, hsum]
    rw [hcast, mul_inv_cancel₀]
    exact Nat.cast_ne_zero.mpr (by omega)
/-- Witness for C1 at the boolean column of `dfBool`. -/
theorem topValues_percentages_witness :
    ∃ tv, cpBool.topValues? = some tv ∧ (tv.map TopValue.count).sum = cpBool.nonNullCount := by
  obtain ⟨tv, htv, _, hlt, _⟩ :=
    topValues_percentages dfBool 0 cpBool (by rfl) (by right; right; rfl)
  exact ⟨tv, htv, hlt (by decide)⟩

/-- The claim also asserts the percentages sum to 1 whenever the column
has fewer than 5 distinct non-null values; an all-null text column has 0
distinct non-null values, a categorical role, and an empty `topValues`
whose percentages sum to 0, not 1. -/
theorem topValues_counterexample :
    ((profile_dataframe dfAllNull).columns.map (fun cp =>
        (cp.role, cp.distinctCount,
         cp.topValues?.map (fun tv => (tv.map TopValue.percentage).sum))))
      = [("categorical", 0, some 0)] ∧ (0 : ℚ) ≠ 1 := by
  constructor
  · have hcond : ¬ ((6 : ℚ)/10
        < ((nuniqueOf [Value.null] : ℕ) : ℚ) / ((max ([Value.null].length) 1 : ℕ) : ℚ)) := by
      rw [show nuniqueOf [Value.null] = 0 from by decide]
      norm_num
    have hrole : infer_role DType.string [Value.null] = "categorical" := by
      simp only [infer_role]
      rw [if_neg hcond]
    simp [profile_dataframe, profile_column, dfAllNull, hrole, top_value_counts, value_counts,
      seriesOf, cellAt, isna, nuniqueOf, List.insertionSort, dtypeAt, nameAt,
      series_sample, List.range_succ]
  · norm_num

/-! ## C9 — numeric stats over non-null values, population variance -/

theorem foldl_min_le (t : List ℚ) : ∀ a : ℚ,
    t.foldl min a ≤ a ∧ ∀ v ∈ t, t.foldl min a ≤ v := by
  induction t with
  | nil => intro a; exact ⟨le_refl a, by simp⟩
  | cons b t ih =>
      intro a
      have hrec := ih (min a b)
      refine ⟨le_trans hrec.1 (min_le_left a b), ?_⟩
      intro v hv
      rcases List.mem_cons.mp hv with rfl | hv
      · exact le_trans hrec.1 (min_le_right a v)
      · exact hrec.2 v hv

theorem foldl_min_mem (t : List ℚ) : ∀ a : ℚ, t.foldl min a = a ∨ t.foldl min a ∈ t := by
  induction t with
  | nil => intro a; left; rfl
  | cons b t ih =>
      intro a
      rcases ih (min a b) with h | h
      · rcases min_choice a b with hab | hab
        · left; rw [List.foldl_cons, h, hab]
        · right; rw [List.foldl_cons, h, hab]; exact List.mem_cons_self b t
      · right; exact List.mem_cons_of_mem b h

theorem foldl_max_le (t : List ℚ) : ∀ a : ℚ,
    a ≤ t.foldl max a ∧ ∀ v ∈ t, v ≤ t.foldl max a := by
  induction t with
  | nil => intro a; exact ⟨le_refl a, by simp⟩
  | cons b t ih =>
      intro a
      have hrec := ih (max a b)
      refine ⟨le_trans (le_max_left a b) hrec.1, ?_⟩
      intro v hv
      rcases List.mem_cons.mp hv with rfl | hv
      · exact le_trans (le_max_right a v) hrec.1
      · exact hrec.2 v hv

theorem foldl_max_mem (t : List ℚ) : ∀ a : ℚ, t.foldl max a = a ∨ t.foldl max a ∈ t := by
  induction t with
  | nil => intro a; left; rfl
  | cons b t ih =>
      intro a
      rcases ih (max a b) with h | h
      · rcases max_choice a b with hab | hab
        · left; rw [List.foldl_cons, h, hab]
        · right; rw [List.foldl_cons, h, hab]; exact List.mem_cons_self b t
      · right; exact List.mem_cons_of_mem b h

theorem listMin_spec (l : List ℚ) (hl : l ≠ []) :
    listMin l ∈ l ∧ ∀ v ∈ l, listMin l ≤ v := by
  cases l with
  | nil => exact absurd rfl hl
  | cons h t =>
      constructor
      · rcases foldl_min_mem t h with he | he
        · rw [listMin, he]; exact List.mem_cons_self h t
        · exact List.mem_cons_of_mem h (by rw [listMin]; exact he)
      · intro v hv
        rcases List.mem_cons.mp hv with rfl | hv
        · exact (foldl_min_le t v).1
        · exact (foldl_min_le t h).2 v hv

theorem listMax_spec (l : List ℚ) (hl : l ≠ []) :
    listMax l ∈ l ∧ ∀ v ∈ l, v ≤ listMax l := by
  cases l with
  | nil => exact absurd rfl hl
  | cons h t =>
      constructor
      · rcases foldl_max_mem t h with he | he
        · rw [listMax, he]; exact List.mem_cons_self h t
        · exact List.mem_cons_of_mem h (by rw [listMax]; exact he)
      · intro v hv
        rcases List.mem_cons.mp hv with rfl | hv
        · exact (foldl_max_le t v).1
        · exact (foldl_max_le t h).2 v hv

/-- **C9.** For every numeric-role column, the profile's stats are
min/max/mean/median and the (squared) population standard deviation —
divisor `count`, not `count - 1` — computed over the non-null values as
exact numbers; an all-null column yields all-null stats and
`missingCount = rowCount`. -/
theorem numeric_stats_profile (df : DataFrame) (i : Nat) (cp : ColumnProfile)
    (h : (profile_dataframe df).columns.get? i = some cp)
    (hrole : cp.role = "numeric") :
    ∃ st, cp.stats? = some st ∧
      ((seriesOf df i).filter (fun v => !(isna v)) = [] →
        st = ⟨none, none, none, none, none⟩ ∧
        cp.missingCount = (profile_dataframe df).rowCount) ∧
      (∀ vals, vals = ((seriesOf df i).filter (fun v => !(isna v))).map toQ → vals ≠ [] →
        (∃ m, st.min? = some m ∧ m ∈ vals ∧ ∀ v ∈ vals, m ≤ v) ∧
        (∃ M, st.max? = some M ∧ M ∈ vals ∧ ∀ v ∈ vals, v ≤ M) ∧
        (∃ μ, st.mean? = some μ ∧ μ * (vals.length : ℚ) = vals.sum ∧
          ∃ σ2, st.stdDevSq? = some σ2 ∧
            σ2 * (vals.length : ℚ) = (vals.map (fun x => (x - μ) ^ 2)).sum) ∧
        (∃ s : List ℚ, s.Perm vals ∧ s.Sorted (· ≤ ·) ∧
          st.median? = some (if vals.length % 2 = 1 then s.getD (vals.length / 2) 0
            else (s.getD (vals.length / 2 - 1) 0 + s.getD (vals.length / 2) 0) / 2))) := by
  have hcp := profile_columns_get df i cp h
  subst hcp
  have hst : (profile_column (nameAt df i) (dtypeAt df i) (seriesOf df i) df.rows.length).stats?
      = some (numeric_stats (seriesOf df i)) := by
    unfold profile_column
    simp only
    rw [if_pos]
    simpa [profile_column] using hrole
  refine ⟨numeric_stats (seriesOf df i), hst, ?_, ?_⟩
  · intro hnull
    have hclean : ((seriesOf df i).filter (fun v => !(isna v))).map toQ = [] := by
      rw [hnull]
      rfl
    constructor
    · unfold numeric_stats
      rw [if_pos (by rw [hclean]; rfl)]
    · have hc := length_filter_not_isna (seriesOf df i)
      have hslen : (seriesOf df i).length = df.rows.length := by simp [seriesOf]
      have hz : ((seriesOf df i).filter (fun v => !(isna v))).length = 0 := by
        rw [hnull]; rfl
      show (profile_column _ _ _ _).missingCount = _
      simp only [profile_column, profile_dataframe]
      omega
  · intro vals hvals hne
    subst hvals
    have hemp : (((seriesOf df i).filter (fun v => !(isna v))).map toQ).isEmpty = false := by
      cases hq : ((seriesOf df i).filter (fun v => !(isna v))).map toQ with
      | nil => exact absurd hq hne
      | cons a l => rfl
    have hstats : numeric_stats (seriesOf df i)
        = { min? := some (listMin (((seriesOf df i).filter (fun v => !(isna v))).map toQ))
            max? := some (listMax (((seriesOf df i).filter (fun v => !(isna v))).map toQ))
            mean? := some ((((seriesOf df i).filter (fun v => !(isna v))).map toQ).sum
              / ((((seriesOf df i).filter (fun v => !(isna v))).map toQ).length : ℚ))
            median? := some (medianQ (((seriesOf df i).filter (fun v => !(isna v))).map toQ))
            stdDevSq? := some (popVariance (((seriesOf df i).filter (fun v => !(isna v))).map toQ)) } := by
      unfold numeric_stats
      rw [if_neg (by rw [hemp]; exact Bool.false_ne_true)]
    have hlenpos : 0 < (((seriesOf df i).filter (fun v => !(isna v))).map toQ).length := by
      cases hq : ((seriesOf df i).filter (fun v => !(isna v))).map toQ with
      | nil => exact absurd hq hne
      | cons a l => simp [hq]
    have hlenne : ((((seriesOf df i).filter (fun v => !(isna v))).map toQ).length : ℚ) ≠ 0 :=
      Nat.cast_ne_zero.mpr (by omega)
    refine ⟨?_, ?_, ?_, ?_⟩
    · obtain ⟨hmem, hle⟩ := listMin_spec _ hne
      exact ⟨_, by rw [hstats], hmem, hle⟩
    · obtain ⟨hmem, hle⟩ := listMax_spec _ hne
      exact ⟨_, by rw [hstats], hmem, hle⟩
    · refine ⟨_, by rw [hstats], div_mul_cancel₀ _ hlenne, ?_⟩
      refine ⟨_, by rw [hstats], ?_⟩
      unfold popVariance
      exact div_mul_cancel₀ _ hlenne
    · refine ⟨List.insertionSort (· ≤ ·) (((seriesOf df i).filter (fun v => !(isna v))).map toQ),
        List.perm_insertionSort _ _, List.sorted_insertionSort _ _, ?_⟩
      rw [hstats]
      rfl

/-- Witness for C9 at the numeric column of `dfNum2`. -/
theorem numeric_stats_profile_witness : ∃ st, cpNum2.stats? = some st := by
  obtain ⟨st, hst, -, -⟩ := numeric_stats_profile dfNum2 0 cpNum2 (by rfl) (by rfl)
  exact ⟨st, hst⟩

/-! ## C3 — histogram binning -/

theorem sum_ite_index_ge (j0 : ℕ) : ∀ n : ℕ, n ≤ j0 →
    ((List.range n).map (fun j => if j0 == j then 1 else 0)).sum = 0 := by
  intro n
  induction n with
  | zero => intro _; rfl
  | succ k ih =>
      intro hk
      rw [List.range_succ, List.map_append, List.sum_append, ih (by omega)]
      have hne : (j0 == k) = false := by
        simp only [beq_eq_false_iff_ne, ne_eq]
        omega
      simp [hne]
      omega

theorem sum_ite_index (j0 : ℕ) : ∀ n : ℕ, j0 < n →
    ((List.range n).map (fun j => if j0 == j then 1 else 0)).sum = 1 := by
  intro n
  induction n with
  | zero => intro h; omega
  | succ k ih =>
      intro hk
      rw [List.range_succ, List.map_append, List.sum_append]
      by_cases hj : j0 = k
      · rw [sum_ite_index_ge j0 k (by omega)]
        simp [hj]
      · rw [ih (by omega)]
        have hne : (j0 == k) = false := by
          simp only [beq_eq_false_iff_ne, ne_eq]
          exact hj
        simp [hne]
        omega

theorem sum_countP_fiber (f : ℚ → ℕ) (n : ℕ) (l : List ℚ) (h : ∀ v ∈ l, f v < n) :
    ((List.range n).map (fun j => l.countP (fun v => f v == j))).sum = l.length := by
  induction l with
  | nil => simp
  | cons v l ih =>
      have hrec := ih (fun w hw => h w (List.mem_cons_of_mem v hw))
      have hcons : ∀ j : ℕ, (v :: l).countP (fun w => f w == j)
          = l.countP (fun w => f w == j) + (if f v == j then 1 else 0) := by
        intro j
        rw [List.countP_cons]
      calc ((List.range n).map (fun j => (v :: l).countP (fun w => f w == j))).sum
          = ((List.range n).map (fun j =>
              l.countP (fun w => f w == j) + (if f v == j then 1 else 0))).sum := by
            congr 1
            exact List.map_congr_left (fun j _ => hcons j)
        _ = ((List.range n).map (fun j => l.countP (fun w => f w == j))).sum
            + ((List.range n).map (fun j => if f v == j then 1 else 0)).sum := by
            rw [← List.sum_map_add]
        _ = l.length + 1 := by
            rw [hrec, sum_ite_index (f v) n (h v (List.mem_cons_self v l))]
        _ = (v :: l).length := by simp [Nat.add_comm]

theorem histogramFor_eq (numeric : List ℚ) (bc? : Option ℕ) (hne : numeric ≠ []) :
    histogramFor numeric bc?
      = (List.range (match bc? with | none => 10 | some 0 => 10 | some m => m)).map (fun i =>
          { binStart :=
              (if listMin numeric = listMax numeric then listMin numeric - 1/2
                else listMin numeric)
              + (i : ℚ) *
                (((if listMin numeric = listMax numeric then listMax numeric + 1/2
                    else listMax numeric)
                  - (if listMin numeric = listMax numeric then listMin numeric - 1/2
                    else listMin numeric))
                / ((match bc? with | none => 10 | some 0 => 10 | some m => m : ℕ) : ℚ))
            binEnd :=
              (if listMin numeric = listMax numeric then listMin numeric - 1/2
                else listMin numeric)
              + ((i : ℚ) + 1) *
                (((if listMin numeric = listMax numeric then listMax numeric + 1/2
                    else listMax numeric)
                  - (if listMin numeric = listMax numeric then listMin numeric - 1/2
                    else listMin numeric))
                / ((match bc? with | none => 10 | some 0 => 10 | some m => m : ℕ) : ℚ))
            count := numeric.countP (fun v =>
              (if v = (if listMin numeric = listMax numeric then listMax numeric + 1/2
                  else listMax numeric)
                then (match bc? with | none => 10 | some 0 => 10 | some m => m) - 1
                else (⌊(v - (if listMin numeric = listMax numeric then listMin numeric - 1/2
                    else listMin numeric))
                  / (((if listMin numeric = listMax numeric then listMax numeric + 1/2
                        else listMax numeric)
                      - (if listMin numeric = listMax numeric then listMin numeric - 1/2
                        else listMin numeric))
                    / ((match bc? with | none => 10 | some 0 => 10 | some m => m : ℕ) : ℚ))⌋).toNat)
              == i) }) := by
  have hnempty : ¬ (numeric.isEmpty = true) := by
    cases numeric with
    | nil => exact absurd rfl hne
    | cons a l => simp
  unfold histogramFor
  rw [if_neg hnempty]
  simp only [Nat.cast_one]

theorem binIdx_eq_iff (lo w hi : ℚ) (hw : 0 < w) (n j : ℕ) (hj : j < n)
    (hhieq : hi = lo + (n : ℚ) * w) (v : ℚ) (hvlo : lo ≤ v) (hvhi : v ≤ hi) :
    (if v = hi then n - 1 else (⌊(v - lo) / w⌋).toNat) = j
      ↔ ((lo + (j : ℚ) * w ≤ v ∧ v < lo + ((j : ℚ) + 1) * w) ∨ (j = n - 1 ∧ v = hi)) := by
  by_cases hv : v = hi
  · rw [if_pos hv]
    constructor
    · intro hjeq
      exact Or.inr ⟨hjeq.symm, hv⟩
    · rintro (⟨h1, h2⟩ | ⟨hjeq, _⟩)
      · exfalso
        have hj1 : ((j : ℚ) + 1) ≤ (n : ℚ) := by exact_mod_cast hj
        have hle : lo + ((j : ℚ) + 1) * w ≤ lo + (n : ℚ) * w := by nlinarith
        rw [hv, hhieq] at h2
        linarith
      · exact hjeq.symm
  · rw [if_neg hv]
    have hvlt : v < lo + (n : ℚ) * w := by
      rw [← hhieq]
      exact lt_of_le_of_ne hvhi hv
    have h0 : (0 : ℤ) ≤ ⌊(v - lo) / w⌋ := by
      apply Int.floor_nonneg.mpr
      exact div_nonneg (by linarith) hw.le
    have hiff : ⌊(v - lo) / w⌋ = (j : ℤ)
        ↔ (lo + (j : ℚ) * w ≤ v ∧ v < lo + ((j : ℚ) + 1) * w) := by
      rw [Int.floor_eq_iff]
      push_cast
      constructor
      · rintro ⟨h1, h2⟩
        have ha := (le_div_iff hw).mp h1
        have hb := (div_lt_iff hw).mp h2
        constructor <;> nlinarith
      · rintro ⟨h1, h2⟩
        constructor
        · rw [le_div_iff hw]
          nlinarith
        · rw [div_lt_iff hw]
          nlinarith
    have htoNat := Int.toNat_of_nonneg h0
    constructor
    · intro hjeq
      left
      apply hiff.mp
      omega
    · rintro (hint | ⟨_, hveq⟩)
      · have := hiff.mpr hint
        omega
      · exact absurd hveq hv

/-- **C3 (amended).** When the `x` column exists, the histogram is the
binning of the coerced non-null values: empty data yields no bins;
otherwise there are exactly `binCount` (default 10) equal-width bins
spanning `[min, max]` — expanded to `[min - 1/2, max + 1/2]` when
`min = max`, as numpy does for a degenerate range — with
`edge_i = lo + i·width`, each bin counting the values in
`[edge_i, edge_(i+1))` except that the last bin also includes the top
edge, and the bin counts sum to the number of retained values. -/
theorem histogram_binning (df : DataFrame) (config : ChartConfig) (xi : Nat)
    (hx : colIdx? df config.x = some xi)
    (numeric : List ℚ) (n : ℕ)
    (hn : n = (match config.binCount with | none => 10 | some 0 => 10 | some m => m))
    (lo hi : ℚ)
    (hlo : lo = if listMin numeric = listMax numeric then listMin numeric - 1/2
          else listMin numeric)
    (hhi : hi = if listMin numeric = listMax numeric then listMax numeric + 1/2
          else listMax numeric) :
    (histogram_bins df config
      = .ok (histogramFor ((((seriesOf df xi).map toNumeric).filter (fun v => !(isna v))).map toQ)
          config.binCount)) ∧
    (numeric = [] → histogramFor numeric config.binCount = []) ∧
    (numeric ≠ [] →
      (histogramFor numeric config.binCount).length = n ∧
      (∀ j, j < n →
        (histogramFor numeric config.binCount).get? j = some
          { binStart := lo + (j : ℚ) * ((hi - lo) / (n : ℚ))
            binEnd := lo + ((j : ℚ) + 1) * ((hi - lo) / (n : ℚ))
            count := numeric.countP (fun v =>
              (decide (lo + (j : ℚ) * ((hi - lo) / (n : ℚ)) ≤ v)
                && decide (v < lo + ((j : ℚ) + 1) * ((hi - lo) / (n : ℚ))))
              || (decide (j = n - 1) && decide (v = hi))) }) ∧
      ((histogramFor numeric config.binCount).map HistogramBin.count).sum = numeric.length) := by
  refine ⟨?_, ?_, ?_⟩
  · unfold histogram_bins
    rw [show ensure_column_exists df config.x = .ok xi from by
      unfold ensure_column_exists; rw [hx]]
    rfl
  · intro hempty
    subst hempty
    rfl
  · intro hne
    have hnempty : ¬ (numeric.isEmpty = true) := by
      cases numeric with
      | nil => exact absurd rfl hne
      | cons a l => simp
    have hnpos : 0 < n := by
      rw [hn]
      cases hbc : config.binCount with
      | none => simp
      | some m =>
          cases m with
          | zero => simp
          | succ k => simp
    have hmn := listMin_spec numeric hne
    have hmx := listMax_spec numeric hne
    have hmnmx : listMin numeric ≤ listMax numeric := hmn.2 _ hmx.1
    have hlohi : lo < hi := by
      rw [hlo, hhi]
      by_cases hd : listMin numeric = listMax numeric
      · rw [if_pos hd, if_pos hd]
        linarith
      · rw [if_neg hd, if_neg hd]
        exact lt_of_le_of_ne hmnmx hd
    have hwpos : 0 < (hi - lo) / (n : ℚ) :=
      div_pos (by linarith) (by exact_mod_cast hnpos)
    have hbound : ∀ v ∈ numeric, lo ≤ v ∧ v ≤ hi := by
      intro v hv
      have h1 := hmn.2 v hv
      have h2 := hmx.2 v hv
      rw [hlo, hhi]
      by_cases hd : listMin numeric = listMax numeric
      · rw [if_pos hd, if_pos hd]
        constructor <;> linarith
      · rw [if_neg hd, if_neg hd]
        exact ⟨h1, h2⟩
    have hhieq : hi = lo + (n : ℚ) * ((hi - lo) / (n : ℚ)) := by
      have hnne : ((n : ℚ)) ≠ 0 := Nat.cast_ne_zero.mpr (by omega)
      field_simp
    have hbins : histogramFor numeric config.binCount
        = (List.range n).map (fun i =>
            { binStart := lo + (i : ℚ) * ((hi - lo) / (n : ℚ))
              binEnd := lo + ((i : ℚ) + 1) * ((hi - lo) / (n : ℚ))
              count := numeric.countP (fun v =>
                (if v = hi then n - 1
                  else (⌊(v - lo) / ((hi - lo) / (n : ℚ))⌋).toNat) == i) }) := by
      rw [histogramFor_eq numeric config.binCount hne, ← hn, ← hlo, ← hhi]
      simp only [Nat.cast_one]
    rw [hbins]
    refine ⟨by simp, ?_, ?_⟩
    · intro j hj
      rw [List.get?_map, List.get?_range hj, Option.map_some']
      have hcount : numeric.countP (fun v =>
            (if v = hi then n - 1
              else (⌊(v - lo) / ((hi - lo) / (n : ℚ))⌋).toNat) == j)
          = numeric.countP (fun v =>
            (decide (lo + (j : ℚ) * ((hi - lo) / (n : ℚ)) ≤ v)
              && decide (v < lo + ((j : ℚ) + 1) * ((hi - lo) / (n : ℚ))))
            || (decide (j = n - 1) && decide (v = hi))) := by
        apply List.countP_congr
        intro v hv
        obtain ⟨hvlo, hvhi⟩ := hbound v hv
        have hiff := binIdx_eq_iff lo ((hi - lo) / (n : ℚ)) hi hwpos n j hj hhieq v hvlo hvhi
        simp only [beq_iff_eq, Bool.or_eq_true, Bool.and_eq_true, decide_eq_true_eq]
        exact hiff
      rw [hcount]
    · rw [List.map_map]
      have hidx : ∀ v ∈ numeric,
          (if v = hi then n - 1 else (⌊(v - lo) / ((hi - lo) / (n : ℚ))⌋).toNat) < n := by
        intro v hv
        obtain ⟨hvlo, hvhi⟩ := hbound v hv
        by_cases hveq : v = hi
        · rw [if_pos hveq]
          omega
        · rw [if_neg hveq]
          have hvlt : v < hi := lt_of_le_of_ne hvhi hveq
          have h1 : (v - lo) / ((hi - lo) / (n : ℚ)) < (n : ℚ) := by
            rw [div_lt_iff hwpos]
            have hmul : (n : ℚ) * ((hi - lo) / (n : ℚ)) = hi - lo := by
              have hnne : ((n : ℚ)) ≠ 0 := Nat.cast_ne_zero.mpr (by omega)
              field_simp
            rw [hmul]
            linarith
          have h2 : ⌊(v - lo) / ((hi - lo) / (n : ℚ))⌋ < (n : ℤ) := by
            rw [Int.floor_lt]
            push_cast
            exact h1
          omega
      exact sum_countP_fiber _ n numeric hidx

/-- Witness for C3: the histogram of `[1..10]` with 5 bins has 5 bins
and its counts sum to 10. -/
theorem histogram_binning_witness :
    histogram_bins dfHist10 cfgHist5
      = .ok (histogramFor
          ((((seriesOf dfHist10 0).map toNumeric).filter (fun v => !(isna v))).map toQ)
          cfgHist5.binCount) ∧
    (histogramFor ((((seriesOf dfHist10 0).map toNumeric).filter (fun v => !(isna v))).map toQ)
      cfgHist5.binCount).length = 5 ∧
    ((histogramFor ((((seriesOf dfHist10 0).map toNumeric).filter (fun v => !(isna v))).map toQ)
      cfgHist5.binCount).map HistogramBin.count).sum = 10 := by
  obtain ⟨hlink, -, hprops⟩ :=
    histogram_binning dfHist10 cfgHist5 0 (by rfl)
      ((((seriesOf dfHist10 0).map toNumeric).filter (fun v => !(isna v))).map toQ)
      5 (by rfl) 1 10 (by decide) (by decide)
  obtain ⟨hlen, -, hsum⟩ := hprops (by decide)
  refine ⟨hlink, hlen, ?_⟩
  rw [hsum]
  decide

/-- The claim says the bins always span `[min(x), max(x)]` with
`edge_0 = min`; on a single-valued column the range degenerates and
numpy expands it, so the first bin starts at `min - 1/2`, not `min`. -/
theorem histogram_degenerate_counterexample :
    (histogram_bins dfHist1 cfgHist10).toOption.map
        (fun bins => bins.head?.map HistogramBin.binStart)
      = some (some ((9 : ℚ)/2)) ∧
    ((9 : ℚ)/2) ≠ 5 ∧
    listMin ((((seriesOf dfHist1 0).map toNumeric).filter (fun v => !(isna v))).map toQ) = 5 := by
  refine ⟨?_, by norm_num, rfl⟩
  show (Except.ok (histogramFor [(5 : ℚ)] (some 10))).toOption.map
      (fun bins => bins.head?.map HistogramBin.binStart) = _
  simp only [histogramFor]
  rw [if_neg (by decide)]
  rw [show List.range 10 = [0, 1, 2, 3, 4, 5, 6, 7, 8, 9] from by decide]
  simp only [Except.toOption, Option.map, List.map_cons, List.head?_cons]
  norm_num [listMin, listMax]

/-! ## C4 — scatter points: the first 500 valid rows, sorted by `x` -/

theorem scatterRowLe_total (xname : String) (a b : List (String × Value)) :
    scatterRowLe xname a b ∨ scatterRowLe xname b a :=
  valueLe_total _ _

theorem scatterRowLe_trans (xname : String) (a b c : List (String × Value))
    (h1 : scatterRowLe xname a b) (h2 : scatterRowLe xname b c) : scatterRowLe xname a c :=
  valueLe_trans _ _ _ h1 h2

theorem scatterBase_eq (config : ChartConfig) (yname : String) (xi yi : Nat)
    (r : List Value) (hxy : config.x ≠ yname) :
    scatterBase config yname xi yi r
      = [(config.x, toNumeric (cellAt r xi)), (yname, toNumeric (cellAt r yi))] := by
  unfold scatterBase assocSet
  simp [hxy]

theorem scatterRow_gets (df : DataFrame) (config : ChartConfig) (yname : String)
    (xi yi : Nat) (r : List Value) (hxy : config.x ≠ yname)
    (hcolor : ∀ c, config.color = some c → colIdx? df c = none ∨ (c ≠ config.x ∧ c ≠ yname)) :
    assocGet (scatterRow df config yname xi yi r) config.x = toNumeric (cellAt r xi) ∧
    assocGet (scatterRow df config yname xi yi r) yname = toNumeric (cellAt r yi) := by
  have hbase := scatterBase_eq config yname xi yi r hxy
  have hbxy : (config.x == yname) = false := beq_eq_false_iff_ne.mpr hxy
  cases hcc : config.color with
  | none =>
      simp only [scatterRow, hcc]
      rw [hbase]
      exact ⟨by simp [assocGet, List.find?, hbxy],
        by simp [assocGet, List.find?, hbxy]⟩
  | some c =>
      cases hci : colIdx? df c with
      | none =>
          simp only [scatterRow, hcc, hci]
          rw [hbase]
          exact ⟨by simp [assocGet, List.find?, hbxy],
            by simp [assocGet, List.find?, hbxy]⟩
      | some ci =>
          rcases hcolor c hcc with hnone | ⟨hcx, hcy⟩
          · rw [hnone] at hci
            cases hci
          · have hbxc : (config.x == c) = false := beq_eq_false_iff_ne.mpr (Ne.symm hcx)
            have hbyc : (yname == c) = false := beq_eq_false_iff_ne.mpr (Ne.symm hcy)
            simp only [scatterRow, hcc, hci]
            rw [hbase]
            constructor
            · simp [assocGet, assocSet, List.find?, hbxy, hbxc, hbyc]
            · simp [assocGet, assocSet, List.find?, hbxy, hbxc, hbyc]

theorem toNumeric_num_of_not_isna (v : Value) (h : isna (toNumeric v) = false) :
    ∃ q : ℚ, toNumeric v = .num q := by
  cases v with
  | null => cases h
  | bool b => exact ⟨if b then 1 else 0, rfl⟩
  | num q => exact ⟨q, rfl⟩
  | str s =>
      simp only [toNumeric] at h ⊢
      cases hp : parseFloat? s with
      | some q => exact ⟨q, rfl⟩
      | none => simp [hp, isna] at h

theorem exceptMapM_ok {α β : Type _} (f : α → Except AppError β) (g : α → β)
    (l : List α) (h : ∀ a ∈ l, f a = .ok (g a)) : l.mapM f = .ok (l.map g) := by
  induction l with
  | nil => rfl
  | cons a as ih =>
      rw [List.mapM_cons, h a (List.mem_cons_self a as), except_ok_bind,
        ih (fun b hb => h b (List.mem_cons_of_mem a hb)), except_ok_bind]
      rfl

theorem scatterEmitE_ok (df : DataFrame) (config : ChartConfig) (yname : String)
    (w : List (String × Value)) (a b : ℚ)
    (ha : assocGet w config.x = .num a) (hb : assocGet w yname = .num b) :
    scatterEmitE df config yname w = .ok (scatterEmitP df config yname w) := by
  unfold scatterEmitE scatterEmitP
  rw [ha, hb]
  rfl

theorem scatter_pipeline (df : DataFrame) (config : ChartConfig) (yname : String)
    (xi yi : Nat) (hxy : config.x ≠ yname)
    (hcolor : ∀ c, config.color = some c → colIdx? df c = none ∨ (c ≠ config.x ∧ c ≠ yname))
    (l : List (List Value)) (hl : ∀ r ∈ l, scatterValid xi yi r = true) :
    ∃ ps : List ScatterPoint,
      (List.insertionSort (scatterRowLe config.x)
          (l.map (scatterRow df config yname xi yi))).mapM
        (scatterEmitE df config yname) = .ok ps ∧
      ps.length = l.length ∧
      ps.Pairwise (fun p q => p.x ≤ q.x) ∧
      (ps.map (fun p => (p.x, p.y))).Perm
        (l.map (fun r => (toQ (toNumeric (cellAt r xi)), toQ (toNumeric (cellAt r yi))))) := by
  have hgets := fun r => scatterRow_gets df config yname xi yi r hxy hcolor
  have hperm : List.Perm
      (List.insertionSort (scatterRowLe config.x)
        (l.map (scatterRow df config yname xi yi)))
      (l.map (scatterRow df config yname xi yi)) :=
    List.perm_insertionSort _ _
  have hmem : ∀ w ∈ List.insertionSort (scatterRowLe config.x)
      (l.map (scatterRow df config yname xi yi)),
      ∃ a b : ℚ, assocGet w config.x = .num a ∧ assocGet w yname = .num b := by
    intro w hw
    have hw' : w ∈ l.map (scatterRow df config yname xi yi) := hperm.mem_iff.mp hw
    obtain ⟨r, hr, rfl⟩ := List.mem_map.mp hw'
    have hv := hl r hr
    simp only [scatterValid, Bool.and_eq_true, Bool.not_eq_true'] at hv
    obtain ⟨qa, ha⟩ := toNumeric_num_of_not_isna _ hv.1
    obtain ⟨qb, hb⟩ := toNumeric_num_of_not_isna _ hv.2
    exact ⟨qa, qb, by rw [(hgets r).1, ha], by rw [(hgets r).2, hb]⟩
  have hemit : ∀ w ∈ List.insertionSort (scatterRowLe config.x)
      (l.map (scatterRow df config yname xi yi)),
      scatterEmitE df config yname w = .ok (scatterEmitP df config yname w) := by
    intro w hw
    obtain ⟨qa, qb, ha, hb⟩ := hmem w hw
    exact scatterEmitE_ok df config yname w qa qb ha hb
  refine ⟨(List.insertionSort (scatterRowLe config.x)
      (l.map (scatterRow df config yname xi yi))).map (scatterEmitP df config yname),
    exceptMapM_ok _ _ _ hemit, ?_, ?_, ?_⟩
  · rw [List.length_map, hperm.length_eq, List.length_map]
  · rw [List.pairwise_map]
    have hs : List.Pairwise (scatterRowLe config.x)
        (List.insertionSort (scatterRowLe config.x)
          (l.map (scatterRow df config yname xi yi))) :=
      @List.sorted_insertionSort _ (scatterRowLe config.x) _
        ⟨scatterRowLe_total config.x⟩ ⟨scatterRowLe_trans config.x⟩ _
    refine List.Pairwise.imp_of_mem ?_ hs
    intro w₁ w₂ h1 h2 hle
    obtain ⟨a₁, b₁, ha₁, hb₁⟩ := hmem w₁ h1
    obtain ⟨a₂, b₂, ha₂, hb₂⟩ := hmem w₂ h2
    unfold scatterRowLe at hle
    rw [ha₁, ha₂] at hle
    show toQ (assocGet w₁ config.x) ≤ toQ (assocGet w₂ config.x)
    rw [ha₁, ha₂]
    simpa [valueLe, toQ] using hle
  · rw [List.map_map]
    have hmaps : (l.map (scatterRow df config yname xi yi)).map
          ((fun p => (p.x, p.y)) ∘ scatterEmitP df config yname)
        = l.map (fun r => (toQ (toNumeric (cellAt r xi)), toQ (toNumeric (cellAt r yi)))) := by
      rw [List.map_map]
      apply List.map_congr_left
      intro r hr
      simp only [Function.comp_apply, scatterEmitP]
      rw [(hgets r).1, (hgets r).2]
    exact (hperm.map _).trans (hmaps ▸ List.Perm.refl _)

/-- **C4.** For every table and scatter config with `y` present, both
`x` and `y` columns present and distinct, and a configured color column
that is either absent from the table or a third column distinct from
`x` and `y`: the engine succeeds with at most 500 points, the emitted
list is sorted ascending by `x`, and its `(x, y)` pairs are exactly
(a permutation of) the numeric coercions of the first 500 rows, in
original row order, whose `x` and `y` cells both coerce to non-null
numerics.  (When the configured color names the `x` column itself, the
dict-assignment overwrites the coerced sort key with the raw column and
the output can be out of order in `x`; see the counterexample.) -/
theorem scatter_first500_sorted (df : DataFrame) (config : ChartConfig) (yname : String)
    (xi yi : Nat)
    (hy : config.y = some yname)
    (hx : colIdx? df config.x = some xi)
    (hyy : colIdx? df yname = some yi)
    (hxy : config.x ≠ yname)
    (hcolor : ∀ c, config.color = some c → colIdx? df c = none ∨ (c ≠ config.x ∧ c ≠ yname)) :
    ∃ ps : List ScatterPoint,
      scatter_points df config 500 = .ok ps ∧
      ps.length ≤ 500 ∧
      ps.Pairwise (fun p q => p.x ≤ q.x) ∧
      (ps.map (fun p => (p.x, p.y))).Perm
        (((df.rows.filter (scatterValid xi yi)).take 500).map
          (fun r => (toQ (toNumeric (cellAt r xi)), toQ (toNumeric (cellAt r yi))))) := by
  have hens_x : ensure_column_exists df config.x = .ok xi := by
    unfold ensure_column_exists
    rw [hx]
  have hens_y : ensure_column_exists df yname = .ok yi := by
    unfold ensure_column_exists
    rw [hyy]
  have hgets := fun r => scatterRow_gets df config yname xi yi r hxy hcolor
  have h1 : (df.rows.map (scatterRow df config yname xi yi)).filter
        (fun w => !(isna (assocGet w config.x)) && !(isna (assocGet w yname)))
      = (df.rows.filter (scatterValid xi yi)).map (scatterRow df config yname xi yi) := by
    rw [List.filter_map]
    congr 1
    apply List.filter_congr
    intro r _
    simp only [Function.comp_apply, scatterValid]
    rw [(hgets r).1, (hgets r).2]
  have hrun : scatter_points df config 500
      = (List.insertionSort (scatterRowLe config.x)
          (((df.rows.filter (scatterValid xi yi)).take 500).map
            (scatterRow df config yname xi yi))).mapM (scatterEmitE df config yname) := by
    simp only [scatter_points, hy, hens_x, hens_y, except_ok_bind]
    rw [h1, ← List.map_take]
  obtain ⟨ps, hok, hlen, hpw, hperm⟩ :=
    scatter_pipeline df config yname xi yi hxy hcolor
      ((df.rows.filter (scatterValid xi yi)).take 500)
      (fun r hr => List.of_mem_filter (List.take_subset _ _ hr))
  refine ⟨ps, hrun.trans hok, ?_, hpw, hperm⟩
  rw [hlen]
  exact List.length_take_le _ _

/-- **C4 (witness).** Scatter on the two-row frame `dfStrX` (string `x`
made of numeric strings, numeric `y`) with no color column: the claim's
hypotheses hold concretely and the conclusion follows by applying the
theorem. -/
theorem scatter_first500_sorted_witness :
    cfgScatter.y = some "b" ∧ colIdx? dfStrX cfgScatter.x = some 0 ∧
    (∃ ps : List ScatterPoint,
      scatter_points dfStrX cfgScatter 500 = .ok ps ∧
      ps.length ≤ 500 ∧
      ps.Pairwise (fun p q => p.x ≤ q.x) ∧
      (ps.map (fun p => (p.x, p.y))).Perm
        (((dfStrX.rows.filter (scatterValid 0 1)).take 500).map
          (fun r => (toQ (toNumeric (cellAt r 0)), toQ (toNumeric (cellAt r 1)))))) :=
  ⟨rfl, rfl,
    scatter_first500_sorted dfStrX cfgScatter "b" 0 1 rfl rfl rfl (by decide)
      (fun _ h => Option.noConfusion h)⟩

/-- **C4 (counterexample).** With `color = x` on `dfStrX`, every row is
valid — `x` coerces to `10` and `9`, `y` to `1` and `2` — yet the
engine emits the points in the order `(10, 1), (9, 2)`: the raw string
column overwrites the coerced `x` in the working frame, so the sort
compares the strings `"10" < "9"` and the output is not ascending in
`x`, refuting the unconditional sorted-by-`x` clause. -/
theorem scatter_color_overwrite_counterexample :
    cfgColorIsX.y = some "b" ∧
    (∀ r ∈ dfStrX.rows, scatterValid 0 1 r = true) ∧
    scatter_points dfStrX cfgColorIsX 500
      = .ok [⟨10, 1, some (.str "10")⟩, ⟨9, 2, some (.str "9")⟩] ∧
    ¬ ((10 : ℚ) ≤ 9) := by
  refine ⟨rfl, by decide, by decide, by decide⟩

end DataExplorer
